import Mathlib

/-!
# FixedWidthInts: type classifier concepts and bounds-checked literal suffixes

A shallow embedding of `inc/FWIConcepts.hpp` (namespace `fwic`) and
`inc/FWILiterals.hpp` (namespace `fwil::literals`).

Both headers are purely compile-time C++.  The embedding therefore has three
layers:

* the part of the C++ type system the headers talk about (`Integral`, `Core`,
  `CppType`) together with a `Platform` that fixes what the standard library
  leaves to the implementation (widths of the integer types, which integer type
  each `<cstdint>` / `<cstddef>` alias names);
* the standard-library facilities the headers call (`std::same_as`,
  `std::is_enum_v`, `std::underlying_type_t`, `std::numeric_limits<T>::max()`,
  `static_cast`);
* the definitions of the two headers themselves, name by name.
-/

namespace FixedWidthInts

/-! ## The C++ types involved -/

/-- The integral types of C++ (`[basic.fundamental]`): `bool`, the character
types and the five standard signed / unsigned integer types. -/
inductive Integral
  | bool | char | wchar_t | char8_t | char16_t | char32_t
  | signed_char | short | int | long | long_long
  | unsigned_char | unsigned_short | unsigned_int | unsigned_long | unsigned_long_long
  deriving DecidableEq, Repr

/-- A type with its cv-qualifiers stripped.  The underlying type of an
enumeration is always an integral type (`[dcl.enum]`), hence never an
enumeration itself.  `other` stands for every type that is neither integral nor
an enumeration (classes, floating point, pointers, references, ...). -/
inductive Core
  | integral (i : Integral)
  | enumeration (id : Nat) (underlying : Integral)
  | other (id : Nat)
  deriving DecidableEq, Repr

/-- A possibly cv-qualified C++ type. -/
structure CppType where
  core : Core
  is_const : Bool
  is_volatile : Bool
  deriving DecidableEq, Repr

/-- The unqualified integral type `i` as a type. -/
def CppType.plain (i : Integral) : CppType := ⟨Core.integral i, false, false⟩

/-- The unqualified enumeration `id` with underlying type `u`. -/
def CppType.enum_of (id : Nat) (u : Integral) : CppType := ⟨Core.enumeration id u, false, false⟩

/-- What the implementation decides: the width in bits of every integral type,
the signedness of `char` and `wchar_t`, and the integer type behind each alias of
`<cstdint>` and `<cstddef>` that the headers use. -/
structure Platform where
  width : Integral → Nat
  char_is_signed : Bool
  wchar_t_is_signed : Bool
  uint8_t : Integral
  uint16_t : Integral
  uint32_t : Integral
  uint64_t : Integral
  int8_t : Integral
  int16_t : Integral
  int32_t : Integral
  int64_t : Integral
  size_t : Integral

/-- The standard signed integer types. -/
def Integral.is_signed_integer : Integral → Bool
  | .signed_char | .short | .int | .long | .long_long => true
  | _ => false

/-- The standard unsigned integer types. -/
def Integral.is_unsigned_integer : Integral → Bool
  | .unsigned_char | .unsigned_short | .unsigned_int | .unsigned_long
  | .unsigned_long_long => true
  | _ => false

/-- Value of `std::is_signed_v` on an integral type. -/
def Platform.is_signed (p : Platform) : Integral → Bool
  | .char => p.char_is_signed
  | .wchar_t => p.wchar_t_is_signed
  | i => i.is_signed_integer

/-- What the C++ standard promises about the aliases: `std::intN_t` is a signed
integer type of width exactly `N`, `std::uintN_t` an unsigned one,
`std::size_t` is an unsigned integer type of at least 16 bits that is no wider
than `unsigned long long`, and `unsigned long long` (the parameter type of the
literal operators) has 64 bits. -/
structure Platform.WellFormed (p : Platform) : Prop where
  uint8 : p.uint8_t.is_unsigned_integer = true ∧ p.width p.uint8_t = 8
  uint16 : p.uint16_t.is_unsigned_integer = true ∧ p.width p.uint16_t = 16
  uint32 : p.uint32_t.is_unsigned_integer = true ∧ p.width p.uint32_t = 32
  uint64 : p.uint64_t.is_unsigned_integer = true ∧ p.width p.uint64_t = 64
  int8 : p.int8_t.is_signed_integer = true ∧ p.width p.int8_t = 8
  int16 : p.int16_t.is_signed_integer = true ∧ p.width p.int16_t = 16
  int32 : p.int32_t.is_signed_integer = true ∧ p.width p.int32_t = 32
  int64 : p.int64_t.is_signed_integer = true ∧ p.width p.int64_t = 64
  size : p.size_t.is_unsigned_integer = true ∧ 16 ≤ p.width p.size_t ∧
    p.width p.size_t ≤ p.width Integral.unsigned_long_long
  ull : p.width Integral.unsigned_long_long = 64

/-- The type names the two headers mention: the ten targets of the concepts,
nine of which are also targets of a literal suffix. -/
inductive TypeName
  | uint8_t | uint16_t | uint32_t | uint64_t
  | int8_t | int16_t | int32_t | int64_t
  | size_t | bool
  deriving DecidableEq, Repr

/-- The spelling of a type name in the headers, as the preprocessor's
`#type_name` stringifies it. -/
def TypeName.spelling : TypeName → String
  | .uint8_t => "std::uint8_t"
  | .uint16_t => "std::uint16_t"
  | .uint32_t => "std::uint32_t"
  | .uint64_t => "std::uint64_t"
  | .int8_t => "std::int8_t"
  | .int16_t => "std::int16_t"
  | .int32_t => "std::int32_t"
  | .int64_t => "std::int64_t"
  | .size_t => "std::size_t"
  | .bool => "bool"

/-- The integral type a type name denotes on a platform. -/
def Platform.resolve (p : Platform) : TypeName → Integral
  | .uint8_t => p.uint8_t
  | .uint16_t => p.uint16_t
  | .uint32_t => p.uint32_t
  | .uint64_t => p.uint64_t
  | .int8_t => p.int8_t
  | .int16_t => p.int16_t
  | .int32_t => p.int32_t
  | .int64_t => p.int64_t
  | .size_t => p.size_t
  | .bool => Integral.bool

/-- The type a type name denotes on a platform. -/
def Platform.type_of (p : Platform) (t : TypeName) : CppType := CppType.plain (p.resolve t)

/-! ### Three concrete platforms -/

/-- Widths of the data model LP64 (`long` has 64 bits). -/
def width_lp64 : Integral → Nat
  | .bool | .char | .char8_t | .signed_char | .unsigned_char => 8
  | .char16_t | .short | .unsigned_short => 16
  | .wchar_t | .char32_t | .int | .unsigned_int => 32
  | .long | .unsigned_long | .long_long | .unsigned_long_long => 64

/-- Widths of the data model ILP32 (`long` has 32 bits). -/
def width_ilp32 : Integral → Nat
  | .bool | .char | .char8_t | .signed_char | .unsigned_char => 8
  | .char16_t | .short | .unsigned_short => 16
  | .wchar_t | .char32_t | .int | .unsigned_int | .long | .unsigned_long => 32
  | .long_long | .unsigned_long_long => 64

/-- Linux on x86-64 with glibc: the 64-bit aliases and `std::size_t` are all
`long` / `unsigned long`. -/
def linux_x86_64 : Platform where
  width := width_lp64
  char_is_signed := true
  wchar_t_is_signed := true
  uint8_t := .unsigned_char
  uint16_t := .unsigned_short
  uint32_t := .unsigned_int
  uint64_t := .unsigned_long
  int8_t := .signed_char
  int16_t := .short
  int32_t := .int
  int64_t := .long
  size_t := .unsigned_long

/-- 64-bit macOS: the 64-bit aliases are `long long` / `unsigned long long`,
`std::size_t` is `unsigned long`. -/
def darwin_64 : Platform where
  width := width_lp64
  char_is_signed := true
  wchar_t_is_signed := true
  uint8_t := .unsigned_char
  uint16_t := .unsigned_short
  uint32_t := .unsigned_int
  uint64_t := .unsigned_long_long
  int8_t := .signed_char
  int16_t := .short
  int32_t := .int
  int64_t := .long_long
  size_t := .unsigned_long

/-- Linux on 32-bit x86: `std::size_t` and `std::uint32_t` are both
`unsigned int`. -/
def linux_i386 : Platform where
  width := width_ilp32
  char_is_signed := true
  wchar_t_is_signed := true
  uint8_t := .unsigned_char
  uint16_t := .unsigned_short
  uint32_t := .unsigned_int
  uint64_t := .unsigned_long_long
  int8_t := .signed_char
  int16_t := .short
  int32_t := .int
  int64_t := .long_long
  size_t := .unsigned_int

/-! ## Standard-library facilities used by the headers -/

/-- The value of `std::numeric_limits<T>::max()` for an integral type. -/
def numeric_limits_max (p : Platform) (i : Integral) : Int :=
  if i = Integral.bool then 1
  else if p.is_signed i then 2 ^ (p.width i - 1) - 1
  else 2 ^ p.width i - 1

/-- The conversion `static_cast<T>(x)` of an integer value to the integral
type `T`: to `bool` it tests for non-zero, to an unsigned type it reduces modulo
`2 ^ width`, to a signed type it takes the congruent value of the two's
complement range (C++20 `[conv.integral]`). -/
def static_cast (p : Platform) (target : Integral) (x : Int) : Int :=
  if target = Integral.bool then (if x = 0 then 0 else 1)
  else if p.is_signed target then
    (if x % 2 ^ p.width target < 2 ^ (p.width target - 1) then x % 2 ^ p.width target
     else x % 2 ^ p.width target - 2 ^ p.width target)
  else x % 2 ^ p.width target

/-- A compile-time constant: its static type and its numeric value. -/
structure Value where
  type : CppType
  val : Int
  deriving DecidableEq, Repr

/-! ## `inc/FWILiterals.hpp` -/

namespace fwil

/-- The macro `FIXED_WIDTH_INT_LITERALS_SUFFIX(suffix, type_name)`: the body of
`consteval type_name operator""suffix(unsigned long long val)`.  The `throw` in
a `consteval` function aborts compilation; it is the `error` result, carrying
the text given to `std::out_of_range`. -/
def FIXED_WIDTH_INT_LITERALS_SUFFIX (p : Platform) (type_name : TypeName) (val : Nat) :
    Except String Value :=
  if (val : Int) >
      static_cast p Integral.unsigned_long_long (numeric_limits_max p (p.resolve type_name)) then
    Except.error ("Literal value out of range for type: " ++ type_name.spelling)
  else
    Except.ok ⟨p.type_of type_name, static_cast p (p.resolve type_name) val⟩

namespace literals

/-- The operator `_u8`. -/
def operator_u8 (p : Platform) := FIXED_WIDTH_INT_LITERALS_SUFFIX p TypeName.uint8_t
/-- The operator `_u16`. -/
def operator_u16 (p : Platform) := FIXED_WIDTH_INT_LITERALS_SUFFIX p TypeName.uint16_t
/-- The operator `_u32`. -/
def operator_u32 (p : Platform) := FIXED_WIDTH_INT_LITERALS_SUFFIX p TypeName.uint32_t
/-- The operator `_u64`. -/
def operator_u64 (p : Platform) := FIXED_WIDTH_INT_LITERALS_SUFFIX p TypeName.uint64_t
/-- The operator `_i8`. -/
def operator_i8 (p : Platform) := FIXED_WIDTH_INT_LITERALS_SUFFIX p TypeName.int8_t
/-- The operator `_i16`. -/
def operator_i16 (p : Platform) := FIXED_WIDTH_INT_LITERALS_SUFFIX p TypeName.int16_t
/-- The operator `_i32`. -/
def operator_i32 (p : Platform) := FIXED_WIDTH_INT_LITERALS_SUFFIX p TypeName.int32_t
/-- The operator `_i64`. -/
def operator_i64 (p : Platform) := FIXED_WIDTH_INT_LITERALS_SUFFIX p TypeName.int64_t
/-- The operator `_z`. -/
def operator_z (p : Platform) := FIXED_WIDTH_INT_LITERALS_SUFFIX p TypeName.size_t

end literals

/-- The nine literal suffixes declared in `fwil::literals`. -/
inductive Suffix
  | _u8 | _u16 | _u32 | _u64 | _i8 | _i16 | _i32 | _i64 | _z
  deriving DecidableEq, Repr

/-- The `type_name` argument each suffix is instantiated with. -/
def Suffix.type_name : Suffix → TypeName
  | ._u8 => .uint8_t
  | ._u16 => .uint16_t
  | ._u32 => .uint32_t
  | ._u64 => .uint64_t
  | ._i8 => .int8_t
  | ._i16 => .int16_t
  | ._i32 => .int32_t
  | ._i64 => .int64_t
  | ._z => .size_t

/-- The literal operator a suffix names. -/
def Suffix.operator (p : Platform) : Suffix → Nat → Except String Value
  | ._u8 => literals.operator_u8 p
  | ._u16 => literals.operator_u16 p
  | ._u32 => literals.operator_u32 p
  | ._u64 => literals.operator_u64 p
  | ._i8 => literals.operator_i8 p
  | ._i16 => literals.operator_i16 p
  | ._i32 => literals.operator_i32 p
  | ._i64 => literals.operator_i64 p
  | ._z => literals.operator_z p

/-- The maximum of a suffix's target type, `std::numeric_limits<type_name>::max()`. -/
def Suffix.max (p : Platform) (s : Suffix) : Int :=
  numeric_limits_max p (p.resolve s.type_name)

/-- The largest value of `unsigned long long`, the operators' parameter type. -/
def ULLONG_MAX : Nat := 2 ^ 64 - 1

/-- Whether an operator call aborted compilation. -/
def failed (r : Except String Value) : Bool :=
  match r with
  | Except.error _ => true
  | Except.ok _ => false

end fwil

/-! ## The host compiler's reading of an integer literal token

The literal operators never see digits: the compiler parses the token in front
of the suffix (`[lex.icon]`, `[lex.ext]`) and calls the operator with the
resulting `unsigned long long`.  This section models that step, as g++ performs
it, for tokens without digit separators, so that statements about notations and
about tokens too large for the parameter can be made. -/

namespace host

/-- The value of one digit character, in any of the four notations. -/
def digit_value (c : Char) : Option Nat :=
  if '0' ≤ c ∧ c ≤ '9' then some (c.toNat - '0'.toNat)
  else if 'a' ≤ c ∧ c ≤ 'f' then some (c.toNat - 'a'.toNat + 10)
  else if 'A' ≤ c ∧ c ≤ 'F' then some (c.toNat - 'A'.toNat + 10)
  else none

/-- One step of reading a digit sequence, most significant digit first: fails on
a character that is not a digit of the base. -/
def digit_step (base : Nat) (acc : Option Nat) (c : Char) : Option Nat :=
  match acc, digit_value c with
  | some a, some d => if d < base then some (a * base + d) else none
  | _, _ => none

/-- The value of a digit sequence in a base. -/
def digits_value (base : Nat) (cs : List Char) : Option Nat :=
  cs.foldl (digit_step base) (some 0)

/-- The value of an integer literal token: `0x` / `0X` starts a hexadecimal,
`0b` / `0B` a binary literal, any other leading `0` an octal one, and a non-zero
first digit a decimal one.  `none` when the token is not an integer literal. -/
def integer_literal (tok : List Char) : Option Nat :=
  match tok with
  | [] => none
  | c :: rest =>
    if c = '0' then
      match rest with
      | [] => some 0
      | m :: ds =>
        if m = 'x' ∨ m = 'X' then (if ds = [] then none else digits_value 16 ds)
        else if m = 'b' ∨ m = 'B' then (if ds = [] then none else digits_value 2 ds)
        else digits_value 8 rest
    else digits_value 10 tok

/-- The character for a digit below sixteen; letters in the requested case. -/
def digit_char (upper : Bool) (d : Nat) : Char :=
  if d < 10 then Char.ofNat ('0'.toNat + d)
  else if upper then Char.ofNat ('A'.toNat + (d - 10))
  else Char.ofNat ('a'.toNat + (d - 10))

/-- The digits of `v` in a base, most significant first, without leading zeros
(so none at all for zero); `upper i` chooses the letter case of the `i`-th
character. -/
def spell_digits (base : Nat) (upper : Nat → Bool) (v : Nat) : List Char :=
  (Nat.digits base v).reverse.enum.map (fun x => digit_char (upper x.1) x.2)

/-- The four notations of an integer literal, with the free choices of
spelling: the case of the marker letter and of each hexadecimal digit. -/
inductive Notation
  | binary (capital_marker : Bool)
  | octal
  | decimal
  | hexadecimal (capital_marker : Bool) (upper : Nat → Bool)

/-- The token that writes `v` in a notation. -/
def spell (n : Notation) (v : Nat) : List Char :=
  match n with
  | .binary capital =>
    '0' :: (if capital then 'B' else 'b') ::
      (if v = 0 then ['0'] else spell_digits 2 (fun _ => false) v)
  | .octal => '0' :: spell_digits 8 (fun _ => false) v
  | .decimal => if v = 0 then ['0'] else spell_digits 10 (fun _ => false) v
  | .hexadecimal capital upper =>
    '0' :: (if capital then 'X' else 'x') ::
      (if v = 0 then ['0'] else spell_digits 16 upper v)

/-- The argument the compiler passes to a literal operator for a token of value
`n`.  A value that does not fit `unsigned long long` is only diagnosed with a
warning by g++ ("integer literal exceeds range of unsigned long long type"); the
call is still made, with the value reduced modulo `2 ^ 64`. -/
def to_unsigned_long_long (n : Nat) : Nat := n % 2 ^ 64

end host

namespace fwil

/-- A user-defined integer literal `tok` followed by a suffix: the compiler
reads the token, converts its value to the `unsigned long long` parameter and
evaluates the suffix's operator on it.  `none` when the token is not an integer
literal, so that no call of the operator is formed. -/
def user_defined_literal (p : Platform) (s : Suffix) (tok : String) :
    Option (Except String Value) :=
  match host.integer_literal tok.toList with
  | none => none
  | some n => some (s.operator p (host.to_unsigned_long_long n))

end fwil

/-! ## More standard-library facilities: type traits and `std::same_as` -/

/-- The trait `std::is_enum_v<T>`; cv-qualifiers do not matter. -/
def is_enum_v (T : CppType) : Bool :=
  match T.core with
  | Core.enumeration _ _ => true
  | _ => false

/-- The alias `std::underlying_type_t<T>`: the (unqualified) underlying type of an
enumeration, no type at all for anything else. -/
def underlying_type_t (T : CppType) : Option CppType :=
  match T.core with
  | Core.enumeration _ u => some (CppType.plain u)
  | _ => none

/-- The concept `std::same_as<T, U>`: identity of types, cv-qualifiers included. -/
def same_as (T U : CppType) : Bool := decide (T = U)

/-- An atomic constraint `std::same_as<A, U>` in which forming `A` may fail: a
substitution failure makes the constraint unsatisfied, not the program
ill-formed (`[temp.constr.atomic]`). -/
def same_as_if_formed (A : Option CppType) (U : CppType) : Bool :=
  match A with
  | some T => same_as T U
  | none => false

/-! ## `inc/FWIConcepts.hpp` -/

namespace fwic

/-- The alias `underlying_or_self_t<T>`: the partial specialisation constrained by
`std::is_enum_v<T>` yields `std::underlying_type_t<T>`, the primary template
yields `T`. -/
def underlying_or_self_t (T : CppType) : CppType :=
  if is_enum_v T then
    match underlying_type_t T with
    | some U => U
    | none => T
  else T

/-- The type `std::uint8_t`. -/
abbrev T_uint8_t (p : Platform) : CppType := CppType.plain p.uint8_t
/-- The type `std::uint16_t`. -/
abbrev T_uint16_t (p : Platform) : CppType := CppType.plain p.uint16_t
/-- The type `std::uint32_t`. -/
abbrev T_uint32_t (p : Platform) : CppType := CppType.plain p.uint32_t
/-- The type `std::uint64_t`. -/
abbrev T_uint64_t (p : Platform) : CppType := CppType.plain p.uint64_t
/-- The type `std::int8_t`. -/
abbrev T_int8_t (p : Platform) : CppType := CppType.plain p.int8_t
/-- The type `std::int16_t`. -/
abbrev T_int16_t (p : Platform) : CppType := CppType.plain p.int16_t
/-- The type `std::int32_t`. -/
abbrev T_int32_t (p : Platform) : CppType := CppType.plain p.int32_t
/-- The type `std::int64_t`. -/
abbrev T_int64_t (p : Platform) : CppType := CppType.plain p.int64_t
/-- The type `std::size_t`. -/
abbrev T_size_t (p : Platform) : CppType := CppType.plain p.size_t
/-- The type `bool`. -/
abbrev T_bool : CppType := CppType.plain Integral.bool

/-- Concept `same_as_uint8_t`. -/
def same_as_uint8_t (p : Platform) (T : CppType) : Bool := same_as T (T_uint8_t p)
/-- Concept `same_as_uint16_t`. -/
def same_as_uint16_t (p : Platform) (T : CppType) : Bool := same_as T (T_uint16_t p)
/-- Concept `same_as_uint32_t`. -/
def same_as_uint32_t (p : Platform) (T : CppType) : Bool := same_as T (T_uint32_t p)
/-- Concept `same_as_uint64_t`. -/
def same_as_uint64_t (p : Platform) (T : CppType) : Bool := same_as T (T_uint64_t p)
/-- Concept `same_as_int8_t`. -/
def same_as_int8_t (p : Platform) (T : CppType) : Bool := same_as T (T_int8_t p)
/-- Concept `same_as_int16_t`. -/
def same_as_int16_t (p : Platform) (T : CppType) : Bool := same_as T (T_int16_t p)
/-- Concept `same_as_int32_t`. -/
def same_as_int32_t (p : Platform) (T : CppType) : Bool := same_as T (T_int32_t p)
/-- Concept `same_as_int64_t`. -/
def same_as_int64_t (p : Platform) (T : CppType) : Bool := same_as T (T_int64_t p)
/-- Concept `same_as_size_t`. -/
def same_as_size_t (p : Platform) (T : CppType) : Bool := same_as T (T_size_t p)
/-- Concept `same_as_bool`. -/
def same_as_bool (T : CppType) : Bool := same_as T T_bool

/-- Concept `underlying_uint8_t`; `&&` between atomic constraints is evaluated
left to right and stops at the first unsatisfied one. -/
def underlying_uint8_t (p : Platform) (T : CppType) : Bool :=
  is_enum_v T && same_as_if_formed (underlying_type_t T) (T_uint8_t p)
/-- Concept `underlying_uint16_t`. -/
def underlying_uint16_t (p : Platform) (T : CppType) : Bool :=
  is_enum_v T && same_as_if_formed (underlying_type_t T) (T_uint16_t p)
/-- Concept `underlying_uint32_t`. -/
def underlying_uint32_t (p : Platform) (T : CppType) : Bool :=
  is_enum_v T && same_as_if_formed (underlying_type_t T) (T_uint32_t p)
/-- Concept `underlying_uint64_t`. -/
def underlying_uint64_t (p : Platform) (T : CppType) : Bool :=
  is_enum_v T && same_as_if_formed (underlying_type_t T) (T_uint64_t p)
/-- Concept `underlying_int8_t`. -/
def underlying_int8_t (p : Platform) (T : CppType) : Bool :=
  is_enum_v T && same_as_if_formed (underlying_type_t T) (T_int8_t p)
/-- Concept `underlying_int16_t`. -/
def underlying_int16_t (p : Platform) (T : CppType) : Bool :=
  is_enum_v T && same_as_if_formed (underlying_type_t T) (T_int16_t p)
/-- Concept `underlying_int32_t`. -/
def underlying_int32_t (p : Platform) (T : CppType) : Bool :=
  is_enum_v T && same_as_if_formed (underlying_type_t T) (T_int32_t p)
/-- Concept `underlying_int64_t`. -/
def underlying_int64_t (p : Platform) (T : CppType) : Bool :=
  is_enum_v T && same_as_if_formed (underlying_type_t T) (T_int64_t p)
/-- Concept `underlying_size_t`. -/
def underlying_size_t (p : Platform) (T : CppType) : Bool :=
  is_enum_v T && same_as_if_formed (underlying_type_t T) (T_size_t p)
/-- Concept `underlying_bool`. -/
def underlying_bool (T : CppType) : Bool :=
  is_enum_v T && same_as_if_formed (underlying_type_t T) T_bool

/-- Concept `underlying_or_same_as_uint8_t`. -/
def underlying_or_same_as_uint8_t (p : Platform) (T : CppType) : Bool :=
  same_as (underlying_or_self_t T) (T_uint8_t p)
/-- Concept `underlying_or_same_as_uint16_t`. -/
def underlying_or_same_as_uint16_t (p : Platform) (T : CppType) : Bool :=
  same_as (underlying_or_self_t T) (T_uint16_t p)
/-- Concept `underlying_or_same_as_uint32_t`. -/
def underlying_or_same_as_uint32_t (p : Platform) (T : CppType) : Bool :=
  same_as (underlying_or_self_t T) (T_uint32_t p)
/-- Concept `underlying_or_same_as_uint64_t`. -/
def underlying_or_same_as_uint64_t (p : Platform) (T : CppType) : Bool :=
  same_as (underlying_or_self_t T) (T_uint64_t p)
/-- Concept `underlying_or_same_as_int8_t`. -/
def underlying_or_same_as_int8_t (p : Platform) (T : CppType) : Bool :=
  same_as (underlying_or_self_t T) (T_int8_t p)
/-- Concept `underlying_or_same_as_int16_t`. -/
def underlying_or_same_as_int16_t (p : Platform) (T : CppType) : Bool :=
  same_as (underlying_or_self_t T) (T_int16_t p)
/-- Concept `underlying_or_same_as_int32_t`. -/
def underlying_or_same_as_int32_t (p : Platform) (T : CppType) : Bool :=
  same_as (underlying_or_self_t T) (T_int32_t p)
/-- Concept `underlying_or_same_as_int64_t`. -/
def underlying_or_same_as_int64_t (p : Platform) (T : CppType) : Bool :=
  same_as (underlying_or_self_t T) (T_int64_t p)
/-- Concept `underlying_or_same_as_size_t`. -/
def underlying_or_same_as_size_t (p : Platform) (T : CppType) : Bool :=
  same_as (underlying_or_self_t T) (T_size_t p)
/-- Concept `underlying_or_same_as_bool`. -/
def underlying_or_same_as_bool (T : CppType) : Bool :=
  same_as (underlying_or_self_t T) T_bool

/-- The "is-exactly" family, indexed by its target: the concept `same_as_<t>`. -/
def is_exactly (p : Platform) : TypeName → CppType → Bool
  | .uint8_t => same_as_uint8_t p
  | .uint16_t => same_as_uint16_t p
  | .uint32_t => same_as_uint32_t p
  | .uint64_t => same_as_uint64_t p
  | .int8_t => same_as_int8_t p
  | .int16_t => same_as_int16_t p
  | .int32_t => same_as_int32_t p
  | .int64_t => same_as_int64_t p
  | .size_t => same_as_size_t p
  | .bool => same_as_bool

/-- The "is-enum-of" family, indexed by its target: the concept `underlying_<t>`. -/
def is_enum_of (p : Platform) : TypeName → CppType → Bool
  | .uint8_t => underlying_uint8_t p
  | .uint16_t => underlying_uint16_t p
  | .uint32_t => underlying_uint32_t p
  | .uint64_t => underlying_uint64_t p
  | .int8_t => underlying_int8_t p
  | .int16_t => underlying_int16_t p
  | .int32_t => underlying_int32_t p
  | .int64_t => underlying_int64_t p
  | .size_t => underlying_size_t p
  | .bool => underlying_bool

/-- The "is-exactly-or-enum-of" family, indexed by its target: the concept
`underlying_or_same_as_<t>`. -/
def is_exactly_or_enum_of (p : Platform) : TypeName → CppType → Bool
  | .uint8_t => underlying_or_same_as_uint8_t p
  | .uint16_t => underlying_or_same_as_uint16_t p
  | .uint32_t => underlying_or_same_as_uint32_t p
  | .uint64_t => underlying_or_same_as_uint64_t p
  | .int8_t => underlying_or_same_as_int8_t p
  | .int16_t => underlying_or_same_as_int16_t p
  | .int32_t => underlying_or_same_as_int32_t p
  | .int64_t => underlying_or_same_as_int64_t p
  | .size_t => underlying_or_same_as_size_t p
  | .bool => underlying_or_same_as_bool

end fwic

/-! ## Reference tables used in the statements -/

namespace fwil

/-- Equality of operator results is decidable. -/
instance : DecidableEq (Except String Value) := fun a b =>
  match a, b with
  | Except.ok x, Except.ok y =>
    if h : x = y then isTrue (by rw [h]) else isFalse (fun e => h (Except.ok.inj e))
  | Except.error x, Except.error y =>
    if h : x = y then isTrue (by rw [h]) else isFalse (fun e => h (Except.error.inj e))
  | Except.ok _, Except.error _ => isFalse (fun e => by cases e)
  | Except.error _, Except.ok _ => isFalse (fun e => by cases e)

/-- Whether the target of a suffix is one of the `std::intN_t`. -/
def Suffix.is_signed_target : Suffix → Bool
  | ._i8 | ._i16 | ._i32 | ._i64 => true
  | _ => false

/-- The width the standard fixes for the target of a suffix; for `_z` the
platform's width of `std::size_t`. -/
def Suffix.bits (p : Platform) : Suffix → Nat
  | ._u8 | ._i8 => 8
  | ._u16 | ._i16 => 16
  | ._u32 | ._i32 => 32
  | ._u64 | ._i64 => 64
  | ._z => p.width p.size_t

/-- The signed and the unsigned suffix of each fixed width. -/
def same_width_suffixes : List (Nat × Suffix × Suffix) :=
  [(8, ._i8, ._u8), (16, ._i16, ._u16), (32, ._i32, ._u32), (64, ._i64, ._u64)]

end fwil

/-! ## Calls of constrained function templates (`main.cpp`) -/

/-- The type deduced for a by-value `auto` parameter from an argument of type
`T`: top-level cv-qualifiers are dropped. -/
def deduced (T : CppType) : CppType := ⟨T.core, false, false⟩

/-- A call `f(arg)` of an abbreviated function template
`auto f(C auto param) { return param; }` whose parameter is constrained by the
concept `C`: the call is well-formed exactly when the deduced type satisfies
`C`; it then returns its argument.  `none` is the failed overload resolution. -/
def constrained_call (C : CppType → Bool) (arg : Value) : Option Value :=
  if C (deduced arg.type) then some ⟨deduced arg.type, arg.val⟩ else none

/-- The function `StronglyTypedFunction` of `main.cpp`, constrained by
`fwic::same_as_uint8_t`. -/
def StronglyTypedFunction (p : Platform) (arg : Value) : Option Value :=
  constrained_call (fwic.same_as_uint8_t p) arg

/-- The targets `std::uint8_t` ... `std::uint64_t`. -/
def TypeName.is_fixed_unsigned : TypeName → Bool
  | .uint8_t | .uint16_t | .uint32_t | .uint64_t => true
  | _ => false

/-- The targets `std::uint16_t`, `std::uint32_t`, `std::uint64_t`: the fixed-width
types wide enough for `std::size_t`, which has at least 16 bits. -/
def TypeName.is_wide_unsigned : TypeName → Bool
  | .uint16_t | .uint32_t | .uint64_t => true
  | _ => false

/-- The kind of an integral type: `0` for `bool`, `1` for a standard signed
integer type, `2` for a standard unsigned integer type, `3` for a character
type. -/
def Integral.kind (i : Integral) : Nat :=
  if i = Integral.bool then 0
  else if i.is_signed_integer then 1
  else if i.is_unsigned_integer then 2
  else 3

/-- The kind the standard prescribes for each target. -/
def TypeName.kind : TypeName → Nat
  | .bool => 0
  | .int8_t | .int16_t | .int32_t | .int64_t => 1
  | .uint8_t | .uint16_t | .uint32_t | .uint64_t | .size_t => 2

/-- The width the standard prescribes for a target, where it prescribes one. -/
def TypeName.fixed_bits : TypeName → Option Nat
  | .uint8_t | .int8_t => some 8
  | .uint16_t | .int16_t => some 16
  | .uint32_t | .int32_t => some 32
  | .uint64_t | .int64_t => some 64
  | .size_t | .bool => none

/-! ## The named concepts of `inc/FWIConcepts.hpp`, family by family -/

namespace fwic

/-- The concepts declared in lines 37-60 of the header, in order, each with its
name. -/
def same_as_concepts (p : Platform) : List (String × (CppType → Bool)) :=
  [("same_as_uint8_t", same_as_uint8_t p),
   ("same_as_uint16_t", same_as_uint16_t p),
   ("same_as_uint32_t", same_as_uint32_t p),
   ("same_as_uint64_t", same_as_uint64_t p),
   ("same_as_int8_t", same_as_int8_t p),
   ("same_as_int16_t", same_as_int16_t p),
   ("same_as_int32_t", same_as_int32_t p),
   ("same_as_int64_t", same_as_int64_t p),
   ("same_as_size_t", same_as_size_t p),
   ("same_as_bool", same_as_bool)]

/-- The concepts declared in lines 64-87 of the header, in order, each with its
name. -/
def underlying_concepts (p : Platform) : List (String × (CppType → Bool)) :=
  [("underlying_uint8_t", underlying_uint8_t p),
   ("underlying_uint16_t", underlying_uint16_t p),
   ("underlying_uint32_t", underlying_uint32_t p),
   ("underlying_uint64_t", underlying_uint64_t p),
   ("underlying_int8_t", underlying_int8_t p),
   ("underlying_int16_t", underlying_int16_t p),
   ("underlying_int32_t", underlying_int32_t p),
   ("underlying_int64_t", underlying_int64_t p),
   ("underlying_size_t", underlying_size_t p),
   ("underlying_bool", underlying_bool)]

/-- The concepts declared in lines 91-114 of the header, in order, each with its
name. -/
def underlying_or_same_as_concepts (p : Platform) : List (String × (CppType → Bool)) :=
  [("underlying_or_same_as_uint8_t", underlying_or_same_as_uint8_t p),
   ("underlying_or_same_as_uint16_t", underlying_or_same_as_uint16_t p),
   ("underlying_or_same_as_uint32_t", underlying_or_same_as_uint32_t p),
   ("underlying_or_same_as_uint64_t", underlying_or_same_as_uint64_t p),
   ("underlying_or_same_as_int8_t", underlying_or_same_as_int8_t p),
   ("underlying_or_same_as_int16_t", underlying_or_same_as_int16_t p),
   ("underlying_or_same_as_int32_t", underlying_or_same_as_int32_t p),
   ("underlying_or_same_as_int64_t", underlying_or_same_as_int64_t p),
   ("underlying_or_same_as_size_t", underlying_or_same_as_size_t p),
   ("underlying_or_same_as_bool", underlying_or_same_as_bool)]

/-- Every concept the header declares. -/
def public_concepts (p : Platform) : List (String × (CppType → Bool)) :=
  same_as_concepts p ++ underlying_concepts p ++ underlying_or_same_as_concepts p

/-- The names of the declared concepts. -/
def public_concept_names (p : Platform) : List String :=
  (public_concepts p).map Prod.fst

end fwic

/-- The targets of the concepts, in the order of the header. -/
def TypeName.all : List TypeName :=
  [.uint8_t, .uint16_t, .uint32_t, .uint64_t, .int8_t, .int16_t, .int32_t, .int64_t,
   .size_t, .bool]

/-! # Theorems -/

open fwil fwic host

/-! ## The three concrete platforms satisfy the standard's promises -/

theorem linux_x86_64_wellFormed : linux_x86_64.WellFormed := by
  constructor <;> decide

theorem darwin_64_wellFormed : darwin_64.WellFormed := by
  constructor <;> decide

theorem linux_i386_wellFormed : linux_i386.WellFormed := by
  constructor <;> decide

/-! ## The literal operators -/

theorem unsigned_integer_facts (p : Platform) {i : Integral}
    (h : i.is_unsigned_integer = true) : i ≠ Integral.bool ∧ p.is_signed i = false := by
  cases i <;> simp_all [Integral.is_unsigned_integer, Platform.is_signed,
    Integral.is_signed_integer]

theorem signed_integer_facts (p : Platform) {i : Integral}
    (h : i.is_signed_integer = true) : i ≠ Integral.bool ∧ p.is_signed i = true := by
  cases i <;> simp_all [Integral.is_signed_integer, Platform.is_signed]

/-- On a well-formed platform the target of every suffix is a non-`bool` integer
type with the signedness and width its name says. -/
theorem target_facts {p : Platform} (wf : p.WellFormed) (s : Suffix) :
    p.resolve s.type_name ≠ Integral.bool ∧
    p.is_signed (p.resolve s.type_name) = s.is_signed_target ∧
    p.width (p.resolve s.type_name) = s.bits p ∧
    8 ≤ s.bits p ∧ s.bits p ≤ 64 := by
  have hz := wf.size
  have hu := wf.ull
  cases s
  · exact ⟨(unsigned_integer_facts p wf.uint8.1).1, (unsigned_integer_facts p wf.uint8.1).2,
      wf.uint8.2, by simp [Suffix.bits], by simp [Suffix.bits]⟩
  · exact ⟨(unsigned_integer_facts p wf.uint16.1).1, (unsigned_integer_facts p wf.uint16.1).2,
      wf.uint16.2, by simp [Suffix.bits], by simp [Suffix.bits]⟩
  · exact ⟨(unsigned_integer_facts p wf.uint32.1).1, (unsigned_integer_facts p wf.uint32.1).2,
      wf.uint32.2, by simp [Suffix.bits], by simp [Suffix.bits]⟩
  · exact ⟨(unsigned_integer_facts p wf.uint64.1).1, (unsigned_integer_facts p wf.uint64.1).2,
      wf.uint64.2, by simp [Suffix.bits], by simp [Suffix.bits]⟩
  · exact ⟨(signed_integer_facts p wf.int8.1).1, (signed_integer_facts p wf.int8.1).2,
      wf.int8.2, by simp [Suffix.bits], by simp [Suffix.bits]⟩
  · exact ⟨(signed_integer_facts p wf.int16.1).1, (signed_integer_facts p wf.int16.1).2,
      wf.int16.2, by simp [Suffix.bits], by simp [Suffix.bits]⟩
  · exact ⟨(signed_integer_facts p wf.int32.1).1, (signed_integer_facts p wf.int32.1).2,
      wf.int32.2, by simp [Suffix.bits], by simp [Suffix.bits]⟩
  · exact ⟨(signed_integer_facts p wf.int64.1).1, (signed_integer_facts p wf.int64.1).2,
      wf.int64.2, by simp [Suffix.bits], by simp [Suffix.bits]⟩
  · refine ⟨(unsigned_integer_facts p hz.1).1, (unsigned_integer_facts p hz.1).2, rfl, ?_, ?_⟩
    · show 8 ≤ p.width p.size_t
      omega
    · show p.width p.size_t ≤ 64
      omega

/-- The maximum of a suffix's target, in terms of its width and signedness. -/
theorem max_eq {p : Platform} (wf : p.WellFormed) (s : Suffix) :
    s.max p = if s.is_signed_target = true then 2 ^ (s.bits p - 1) - 1 else 2 ^ s.bits p - 1 := by
  obtain ⟨hb, hs, hw, -, -⟩ := target_facts wf s
  unfold Suffix.max numeric_limits_max
  rw [if_neg hb, hs, hw]

theorem two_pow_le_ull {n : Nat} (h : n ≤ 64) : (2 : Int) ^ n ≤ 2 ^ 64 := by
  have : (2 : Nat) ^ n ≤ 2 ^ 64 := Nat.pow_le_pow_right (by decide) h
  exact_mod_cast this

theorem two_pow_pred {n : Nat} (h : 1 ≤ n) : (2 : Int) ^ n = 2 * 2 ^ (n - 1) := by
  obtain ⟨m, rfl⟩ : ∃ m, n = m + 1 := ⟨n - 1, by omega⟩
  simp [pow_succ, mul_comm]

theorem two_pow_pos (n : Nat) : (0 : Int) < 2 ^ n := by positivity

/-- The maximum of every target is a value of `unsigned long long`. -/
theorem max_bounds {p : Platform} (wf : p.WellFormed) (s : Suffix) :
    0 ≤ s.max p ∧ s.max p ≤ (ULLONG_MAX : Int) := by
  obtain ⟨-, -, -, h8, h64⟩ := target_facts wf s
  have h1 := two_pow_le_ull h64
  have h2 := two_pow_pred (n := s.bits p) (by omega)
  have h3 := two_pow_pos (s.bits p - 1)
  have hU : (ULLONG_MAX : Int) = 2 ^ 64 - 1 := by decide
  rw [max_eq wf s, hU]
  split <;> constructor <;> omega

/-- The cast in the range check does not change the maximum. -/
theorem cast_ull_max {p : Platform} (wf : p.WellFormed) (s : Suffix) :
    static_cast p Integral.unsigned_long_long (s.max p) = s.max p := by
  obtain ⟨h0, h1⟩ := max_bounds wf s
  have hU : (ULLONG_MAX : Int) = 2 ^ 64 - 1 := by decide
  unfold static_cast
  rw [if_neg (by decide)]
  have : p.is_signed Integral.unsigned_long_long = false := rfl
  rw [this, wf.ull]
  simp only [Bool.false_eq_true, if_false]
  exact Int.emod_eq_of_lt h0 (by omega)

/-- Narrowing a value that is at most the target's maximum does not change it. -/
theorem cast_target_of_le {p : Platform} (wf : p.WellFormed) (s : Suffix) (v : Nat)
    (h : (v : Int) ≤ s.max p) : static_cast p (p.resolve s.type_name) v = v := by
  obtain ⟨hb, hs, hw, h8, h64⟩ := target_facts wf s
  have h2 := two_pow_pred (n := s.bits p) (by omega)
  have h3 := two_pow_pos (s.bits p - 1)
  rw [max_eq wf s] at h
  unfold static_cast
  rw [if_neg hb, hs, hw]
  have hv : (0 : Int) ≤ v := Int.ofNat_nonneg v
  cases hsig : s.is_signed_target
  · simp only [hsig, Bool.false_eq_true, if_false] at h ⊢
    exact Int.emod_eq_of_lt hv (by omega)
  · simp only [hsig, if_true] at h ⊢
    have hm : (v : Int) % 2 ^ s.bits p = v := Int.emod_eq_of_lt hv (by omega)
    rw [hm, if_pos (by omega)]

theorem operator_eq (p : Platform) (s : Suffix) (v : Nat) :
    s.operator p v = FIXED_WIDTH_INT_LITERALS_SUFFIX p s.type_name v := by
  cases s <;> rfl

/-- What every literal operator computes on a well-formed platform. -/
theorem operator_spec {p : Platform} (wf : p.WellFormed) (s : Suffix) (v : Nat) :
    s.operator p v =
      if (v : Int) > s.max p then
        Except.error ("Literal value out of range for type: " ++ s.type_name.spelling)
      else Except.ok ⟨p.type_of s.type_name, v⟩ := by
  rw [operator_eq]
  unfold FIXED_WIDTH_INT_LITERALS_SUFFIX
  have hc := cast_ull_max wf s
  unfold Suffix.max at hc
  rw [hc]
  by_cases h : (v : Int) > numeric_limits_max p (p.resolve s.type_name)
  · have h' : (v : Int) > s.max p := h
    rw [if_pos h, if_pos h']
  · have h' : ¬ (v : Int) > s.max p := h
    rw [if_neg h, if_neg h', cast_target_of_le wf s v (by unfold Suffix.max; omega)]

theorem failed_operator_iff {p : Platform} (wf : p.WellFormed) (s : Suffix) (v : Nat) :
    failed (s.operator p v) = true ↔ (v : Int) > s.max p := by
  rw [operator_spec wf s v]
  by_cases h : (v : Int) > s.max p
  · simp [h, failed]
  · simp [h, failed]

/-- C1: on every platform that keeps the standard's promises, for each of the
nine suffixes and every `unsigned long long` input `v`, the literal operator
fails exactly when `v` exceeds `std::numeric_limits<T>::max()` of its target;
whenever it returns, the result has the target type and the numeric value `v`
itself, so no out-of-range value is ever truncated or wrapped into the
target. -/
theorem literal_fails_iff_exceeds_max {p : Platform} (wf : p.WellFormed) (s : Suffix)
    (v : Nat) (_hv : v ≤ ULLONG_MAX) :
    (failed (s.operator p v) = true ↔ (v : Int) > s.max p) ∧
    (∀ r, s.operator p v = Except.ok r →
      (v : Int) ≤ s.max p ∧ r.type = p.type_of s.type_name ∧ r.val = v) := by
  refine ⟨failed_operator_iff wf s v, ?_⟩
  intro r hr
  rw [operator_spec wf s v] at hr
  by_cases h : (v : Int) > s.max p
  · rw [if_pos h] at hr
    cases hr
  · rw [if_neg h] at hr
    cases hr
    exact ⟨by omega, rfl, rfl⟩

/-- Witness of C1 on x86-64 Linux: `257_u8`, `0xff01_u8` and `0xffff12345_u32`
fail; the same three written as tokens reach the operator and fail there. -/
theorem literal_fails_iff_exceeds_max_witness :
    failed (Suffix._u8.operator linux_x86_64 257) = true ∧
    failed (Suffix._u8.operator linux_x86_64 0xff01) = true ∧
    failed (Suffix._u32.operator linux_x86_64 0xffff12345) = true ∧
    (user_defined_literal linux_x86_64 Suffix._u8 "257").map failed = some true ∧
    (user_defined_literal linux_x86_64 Suffix._u8 "0xff01").map failed = some true ∧
    (user_defined_literal linux_x86_64 Suffix._u32 "0xffff12345").map failed = some true :=
  ⟨(literal_fails_iff_exceeds_max linux_x86_64_wellFormed Suffix._u8 257 (by decide)).1.2
      (by decide),
   (literal_fails_iff_exceeds_max linux_x86_64_wellFormed Suffix._u8 0xff01 (by decide)).1.2
      (by decide),
   (literal_fails_iff_exceeds_max linux_x86_64_wellFormed Suffix._u32 0xffff12345
      (by decide)).1.2 (by decide),
   by decide, by decide, by decide⟩

/-- C2: for each of the nine suffixes and every `v` with `0 ≤ v ≤ max(T)`, the
literal operator succeeds and returns the value `v` with static type `T`;
converting that result back to `unsigned long long` gives `v` again.  Zero and
`max(T)` themselves are accepted. -/
theorem literal_in_range_returns_value {p : Platform} (wf : p.WellFormed) (s : Suffix)
    (v : Nat) (h : (v : Int) ≤ s.max p) :
    v ≤ ULLONG_MAX ∧
    s.operator p v = Except.ok ⟨p.type_of s.type_name, v⟩ ∧
    (∀ r, s.operator p v = Except.ok r →
      static_cast p Integral.unsigned_long_long r.val = v) ∧
    s.operator p 0 = Except.ok ⟨p.type_of s.type_name, 0⟩ ∧
    s.operator p (s.max p).toNat = Except.ok ⟨p.type_of s.type_name, s.max p⟩ := by
  obtain ⟨h0, h1⟩ := max_bounds wf s
  have hU : (ULLONG_MAX : Int) = 2 ^ 64 - 1 := by decide
  have hok : s.operator p v = Except.ok ⟨p.type_of s.type_name, v⟩ := by
    rw [operator_spec wf s v, if_neg (by omega)]
  have hback : static_cast p Integral.unsigned_long_long (v : Int) = v := by
    unfold static_cast
    rw [if_neg (by decide)]
    have : p.is_signed Integral.unsigned_long_long = false := rfl
    rw [this, wf.ull]
    simp only [Bool.false_eq_true, if_false]
    exact Int.emod_eq_of_lt (Int.ofNat_nonneg v) (by omega)
  refine ⟨by omega, hok, ?_, ?_, ?_⟩
  · intro r hr
    rw [hok] at hr
    cases hr
    exact hback
  · rw [operator_spec wf s 0, if_neg (by simpa using h0)]
    rfl
  · rw [operator_spec wf s, if_neg (by rw [Int.toNat_of_nonneg h0]; omega),
      Int.toNat_of_nonneg h0]

/-- Witness of C2: the largest `unsigned long long` as `_u64` on x86-64 Linux. -/
theorem literal_in_range_returns_value_witness :
    18446744073709551615 ≤ ULLONG_MAX ∧
    Suffix._u64.operator linux_x86_64 18446744073709551615 =
      Except.ok ⟨linux_x86_64.type_of TypeName.uint64_t, 18446744073709551615⟩ :=
  ⟨(literal_in_range_returns_value linux_x86_64_wellFormed Suffix._u64 18446744073709551615
      (by decide)).1,
   (literal_in_range_returns_value linux_x86_64_wellFormed Suffix._u64 18446744073709551615
      (by decide)).2.1⟩

/-- C3, as stated, fails for `_u64`: `max + 1` is `2 ^ 64`, which does not fit
the operator's `unsigned long long` parameter.  The literal
`18446744073709551616_u64` (also written `0x10000000000000000_u64`) does not
fail: the operator is called with the value reduced to its parameter type and
returns the constant `0` of type `std::uint64_t`.  The same holds for `_z` on
x86-64 Linux. -/
theorem max_plus_one_u64_literal_accepted :
    Suffix._u64.max linux_x86_64 + 1 = 18446744073709551616 ∧
    integer_literal "18446744073709551616".toList = some 18446744073709551616 ∧
    user_defined_literal linux_x86_64 Suffix._u64 "18446744073709551616" =
      some (Except.ok ⟨T_uint64_t linux_x86_64, 0⟩) ∧
    (user_defined_literal linux_x86_64 Suffix._u64 "18446744073709551616").map failed =
      some false ∧
    user_defined_literal linux_x86_64 Suffix._u64 "0x10000000000000000" =
      some (Except.ok ⟨T_uint64_t linux_x86_64, 0⟩) ∧
    Suffix._z.max linux_x86_64 + 1 = 18446744073709551616 ∧
    user_defined_literal linux_x86_64 Suffix._z "18446744073709551616" =
      some (Except.ok ⟨T_size_t linux_x86_64, 0⟩) := by
  decide

/-- C3, amended: `max(T) + 1` exists as an `unsigned long long` exactly for the
suffixes other than `_u64`, and for `_z` when `std::size_t` is narrower than 64
bits; for these the operator rejects `max(T) + 1` and every literal token of
that value fails.  For the others `max(T) + 1` is `2 ^ 64`: a token of that
value reaches the operator as `0` and yields the constant `0` of type `T`. -/
theorem max_plus_one_rejected_when_representable {p : Platform} (wf : p.WellFormed)
    (s : Suffix) :
    (s.max p + 1 ≤ (ULLONG_MAX : Int) ↔
      s ≠ Suffix._u64 ∧ (s = Suffix._z → p.width p.size_t < 64)) ∧
    (s.max p + 1 ≤ (ULLONG_MAX : Int) →
      failed (s.operator p (s.max p + 1).toNat) = true) ∧
    (∀ tok : String, integer_literal tok.toList = some (s.max p + 1).toNat →
      (s.max p + 1 ≤ (ULLONG_MAX : Int) →
        (user_defined_literal p s tok).map failed = some true) ∧
      (¬ s.max p + 1 ≤ (ULLONG_MAX : Int) →
        user_defined_literal p s tok = some (Except.ok ⟨p.type_of s.type_name, 0⟩))) := by
  obtain ⟨h0, h1⟩ := max_bounds wf s
  have hU : (ULLONG_MAX : Int) = 2 ^ 64 - 1 := by decide
  have hrej : s.max p + 1 ≤ (ULLONG_MAX : Int) →
      failed (s.operator p (s.max p + 1).toNat) = true := by
    intro _
    rw [failed_operator_iff wf s, Int.toNat_of_nonneg (by omega)]
    omega
  refine ⟨?_, hrej, ?_⟩
  · rw [max_eq wf s, hU]
    cases s <;> simp [Suffix.is_signed_target, Suffix.bits]
    have hz := wf.size
    have hu := wf.ull
    constructor
    · intro h
      by_contra hc
      have h64 : p.width p.size_t = 64 := by omega
      rw [h64] at h
      omega
    · intro h
      have h2 : (2 : Int) ^ p.width p.size_t ≤ 2 ^ 63 := by
        have : (2 : Nat) ^ p.width p.size_t ≤ 2 ^ 63 :=
          Nat.pow_le_pow_right (by decide) (by omega)
        exact_mod_cast this
      omega
  · intro tok ht
    have hcall : user_defined_literal p s tok =
        some (s.operator p (to_unsigned_long_long (s.max p + 1).toNat)) := by
      unfold user_defined_literal
      rw [ht]
    constructor
    · intro hfit
      have hsame : to_unsigned_long_long (s.max p + 1).toNat = (s.max p + 1).toNat :=
        Nat.mod_eq_of_lt (by omega)
      rw [hcall, hsame, Option.map_some', hrej hfit]
    · intro hbig
      have hval : (s.max p + 1).toNat = 2 ^ 64 := by omega
      have hzero : to_unsigned_long_long (s.max p + 1).toNat = 0 := by
        rw [hval]
        rfl
      rw [hcall, hzero, operator_spec wf s 0, if_neg (by simpa using h0)]
      rfl

/-- Witness of the amended C3: `128_i8` is rejected, and on 32-bit Linux so is
`4294967296_z`; on x86-64 Linux `18446744073709551616_z` yields `0`. -/
theorem max_plus_one_rejected_when_representable_witness :
    failed (Suffix._i8.operator linux_x86_64 128) = true ∧
    failed (Suffix._z.operator linux_i386 4294967296) = true ∧
    (user_defined_literal linux_x86_64 Suffix._i8 "128").map failed = some true ∧
    (user_defined_literal linux_x86_64 Suffix._i8 "0x80").map failed = some true ∧
    user_defined_literal linux_x86_64 Suffix._z "18446744073709551616" =
      some (Except.ok ⟨linux_x86_64.type_of TypeName.size_t, 0⟩) :=
  ⟨(max_plus_one_rejected_when_representable linux_x86_64_wellFormed Suffix._i8).2.1
      (by decide),
   (max_plus_one_rejected_when_representable linux_i386_wellFormed Suffix._z).2.1 (by decide),
   ((max_plus_one_rejected_when_representable linux_x86_64_wellFormed Suffix._i8).2.2
      "128" (by decide)).1 (by decide),
   ((max_plus_one_rejected_when_representable linux_x86_64_wellFormed Suffix._i8).2.2
      "0x80" (by decide)).1 (by decide),
   ((max_plus_one_rejected_when_representable linux_x86_64_wellFormed Suffix._z).2.2
      "18446744073709551616" (by decide)).2 (by decide)⟩

/-- C5: for every width `w` of 8, 16, 32, 64 and every `v` with
`2 ^ (w - 1) ≤ v ≤ 2 ^ w - 1`, the signed `w`-bit suffix rejects `v` while the
unsigned `w`-bit suffix accepts it and returns `v`. -/
theorem signed_rejects_what_unsigned_accepts {p : Platform} (wf : p.WellFormed)
    (w : Nat) (si su : Suffix) (hm : (w, si, su) ∈ same_width_suffixes)
    (v : Nat) (hlo : 2 ^ (w - 1) ≤ v) (hhi : v ≤ 2 ^ w - 1) :
    failed (si.operator p v) = true ∧
    su.operator p v = Except.ok ⟨p.type_of su.type_name, v⟩ := by
  have hi := max_eq wf si
  have hu := max_eq wf su
  simp only [same_width_suffixes, List.mem_cons, Prod.mk.injEq, List.mem_singleton,
    List.not_mem_nil, or_false] at hm
  rcases hm with ⟨rfl, rfl, rfl⟩ | ⟨rfl, rfl, rfl⟩ | ⟨rfl, rfl, rfl⟩ | ⟨rfl, rfl, rfl⟩ <;>
  · simp only [Suffix.is_signed_target, Suffix.bits, if_true, Bool.false_eq_true,
      if_false] at hi hu
    norm_num at hi hu hlo hhi
    refine ⟨(failed_operator_iff wf _ v).2 (by omega), ?_⟩
    rw [operator_spec wf _ v, if_neg (by omega)]

/-- Witness of C5: `128_i8` and `255_i8` fail although `128_u8` and `255_u8`
succeed. -/
theorem signed_rejects_what_unsigned_accepts_witness :
    (failed (Suffix._i8.operator linux_x86_64 128) = true ∧
      Suffix._u8.operator linux_x86_64 128 =
        Except.ok ⟨linux_x86_64.type_of TypeName.uint8_t, 128⟩) ∧
    (failed (Suffix._i8.operator linux_x86_64 255) = true ∧
      Suffix._u8.operator linux_x86_64 255 =
        Except.ok ⟨linux_x86_64.type_of TypeName.uint8_t, 255⟩) :=
  ⟨signed_rejects_what_unsigned_accepts linux_x86_64_wellFormed 8 Suffix._i8 Suffix._u8
      (by decide) 128 (by decide) (by decide),
   signed_rejects_what_unsigned_accepts linux_x86_64_wellFormed 8 Suffix._i8 Suffix._u8
      (by decide) 255 (by decide) (by decide)⟩

/-! ## The type classifier -/

/-- The three concept bodies compared on an arbitrary type and an unqualified
integral target. -/
theorem same_as_underlying_or_self (X : CppType) (i : Integral) :
    same_as (underlying_or_self_t X) (CppType.plain i) =
      (same_as X (CppType.plain i) ||
        (is_enum_v X && same_as_if_formed (underlying_type_t X) (CppType.plain i))) := by
  obtain ⟨core, c, v⟩ := X
  cases core <;>
    simp [underlying_or_self_t, is_enum_v, underlying_type_t, same_as_if_formed, same_as,
      CppType.plain]

theorem is_exactly_eq (p : Platform) (t : TypeName) (X : CppType) :
    is_exactly p t X = same_as X (p.type_of t) := by
  cases t <;> rfl

theorem is_enum_of_eq (p : Platform) (t : TypeName) (X : CppType) :
    is_enum_of p t X =
      (is_enum_v X && same_as_if_formed (underlying_type_t X) (p.type_of t)) := by
  cases t <;> rfl

theorem is_exactly_or_enum_of_eq (p : Platform) (t : TypeName) (X : CppType) :
    is_exactly_or_enum_of p t X = same_as (underlying_or_self_t X) (p.type_of t) := by
  cases t <;> rfl

theorem is_exactly_iff (p : Platform) (t : TypeName) (X : CppType) :
    is_exactly p t X = true ↔ X = p.type_of t := by
  simp [is_exactly_eq, same_as]

theorem is_enum_of_iff (p : Platform) (t : TypeName) (X : CppType) :
    is_enum_of p t X = true ↔
      is_enum_v X = true ∧ underlying_type_t X = some (p.type_of t) := by
  rw [is_enum_of_eq]
  obtain ⟨core, c, v⟩ := X
  cases core <;> simp [is_enum_v, underlying_type_t, same_as_if_formed, same_as]

theorem is_enum_of_plain (p : Platform) (t : TypeName) (i : Integral) :
    is_enum_of p t (CppType.plain i) = false := by
  rw [is_enum_of_eq]
  rfl

theorem is_exactly_or_enum_of_eq_or (p : Platform) (t : TypeName) (X : CppType) :
    is_exactly_or_enum_of p t X = (is_exactly p t X || is_enum_of p t X) := by
  rw [is_exactly_or_enum_of_eq, is_exactly_eq, is_enum_of_eq]
  exact same_as_underlying_or_self X (p.resolve t)

/-- C6: for every target `T` of the concepts and every type `X`,
`underlying_or_same_as_T<X>` equals `same_as_T<X> || underlying_T<X>`, and it
holds exactly when `X` is `T` or `X` is an enumeration whose underlying type is
`T`. -/
theorem underlying_or_same_as_iff (p : Platform) (t : TypeName) (X : CppType) :
    is_exactly_or_enum_of p t X = (is_exactly p t X || is_enum_of p t X) ∧
    (is_exactly_or_enum_of p t X = true ↔
      X = p.type_of t ∨
        (is_enum_v X = true ∧ underlying_type_t X = some (p.type_of t))) := by
  have h := is_exactly_or_enum_of_eq_or p t X
  refine ⟨h, ?_⟩
  rw [h, Bool.or_eq_true, is_exactly_iff, is_enum_of_iff]

/-- C7: for every target `T` and every enumeration `E` whose underlying type is
`T`, `underlying_T<E>` and `underlying_or_same_as_T<E>` hold and `same_as_T<E>`
does not. -/
theorem enum_satisfies_underlying_not_same_as (p : Platform) (t : TypeName) (E : CppType)
    (he : is_enum_v E = true) (hu : underlying_type_t E = some (p.type_of t)) :
    is_enum_of p t E = true ∧ is_exactly_or_enum_of p t E = true ∧
    is_exactly p t E = false := by
  have h1 : is_enum_of p t E = true := (is_enum_of_iff p t E).2 ⟨he, hu⟩
  refine ⟨h1, ?_, ?_⟩
  · rw [is_exactly_or_enum_of_eq_or p t E, h1, Bool.or_true]
  · rw [Bool.eq_false_iff]
    intro h
    rw [is_exactly_iff] at h
    rw [h] at he
    exact absurd he (by simp [is_enum_v, Platform.type_of, CppType.plain])

/-- Witness of C7: `enum class E : std::uint8_t` and its `const` version on
x86-64 Linux. -/
theorem enum_satisfies_underlying_not_same_as_witness :
    (underlying_uint8_t linux_x86_64 (CppType.enum_of 0 Integral.unsigned_char) = true ∧
      underlying_or_same_as_uint8_t linux_x86_64
        (CppType.enum_of 0 Integral.unsigned_char) = true ∧
      same_as_uint8_t linux_x86_64 (CppType.enum_of 0 Integral.unsigned_char) = false) ∧
    (underlying_uint8_t linux_x86_64 ⟨Core.enumeration 0 Integral.unsigned_char, true, false⟩
        = true ∧
      underlying_or_same_as_uint8_t linux_x86_64
        ⟨Core.enumeration 0 Integral.unsigned_char, true, false⟩ = true ∧
      same_as_uint8_t linux_x86_64
        ⟨Core.enumeration 0 Integral.unsigned_char, true, false⟩ = false) :=
  ⟨enum_satisfies_underlying_not_same_as linux_x86_64 TypeName.uint8_t
      (CppType.enum_of 0 Integral.unsigned_char) (by decide) (by decide),
   enum_satisfies_underlying_not_same_as linux_x86_64 TypeName.uint8_t
      ⟨Core.enumeration 0 Integral.unsigned_char, true, false⟩ (by decide) (by decide)⟩

/-- C9: for every target `T`, `underlying_T<X>` holds exactly when `X` is an
enumeration whose underlying type is `T`; on every integral type, qualified or
not and `T` itself included, it is `false` although `std::underlying_type_t` names
no type there; and no type satisfies both a `same_as_T1` and an
`underlying_T2`. -/
theorem underlying_iff_enum_of (p : Platform) (t : TypeName) (X : CppType) :
    (is_enum_of p t X = true ↔
      is_enum_v X = true ∧ underlying_type_t X = some (p.type_of t)) ∧
    (∀ (i : Integral) (c v : Bool),
      underlying_type_t ⟨Core.integral i, c, v⟩ = none ∧
      is_enum_of p t ⟨Core.integral i, c, v⟩ = false) ∧
    is_enum_of p t (p.type_of t) = false ∧
    (∀ t1 t2 : TypeName, ¬ (is_exactly p t1 X = true ∧ is_enum_of p t2 X = true)) := by
  refine ⟨is_enum_of_iff p t X, ?_, ?_, ?_⟩
  · intro i c v
    refine ⟨rfl, ?_⟩
    rw [is_enum_of_eq]
    rfl
  · rw [is_enum_of_eq]
    rfl
  · rintro t1 t2 ⟨h1, h2⟩
    rw [is_exactly_iff] at h1
    rw [is_enum_of_iff, h1] at h2
    exact absurd h2.1 (by simp [is_enum_v, Platform.type_of, CppType.plain])

theorem kind_of_unsigned {i : Integral} (h : i.is_unsigned_integer = true) : i.kind = 2 := by
  cases i <;> simp_all [Integral.is_unsigned_integer, Integral.kind, Integral.is_signed_integer]

theorem kind_of_signed {i : Integral} (h : i.is_signed_integer = true) : i.kind = 1 := by
  cases i <;> simp_all [Integral.kind, Integral.is_signed_integer]

/-- On a well-formed platform every target has the kind and, where fixed, the
width that its name says. -/
theorem resolve_facts {p : Platform} (wf : p.WellFormed) (t : TypeName) :
    (p.resolve t).kind = t.kind ∧
    ∀ n, t.fixed_bits = some n → p.width (p.resolve t) = n := by
  cases t
  · exact ⟨kind_of_unsigned wf.uint8.1, fun n h => by cases h; exact wf.uint8.2⟩
  · exact ⟨kind_of_unsigned wf.uint16.1, fun n h => by cases h; exact wf.uint16.2⟩
  · exact ⟨kind_of_unsigned wf.uint32.1, fun n h => by cases h; exact wf.uint32.2⟩
  · exact ⟨kind_of_unsigned wf.uint64.1, fun n h => by cases h; exact wf.uint64.2⟩
  · exact ⟨kind_of_signed wf.int8.1, fun n h => by cases h; exact wf.int8.2⟩
  · exact ⟨kind_of_signed wf.int16.1, fun n h => by cases h; exact wf.int16.2⟩
  · exact ⟨kind_of_signed wf.int32.1, fun n h => by cases h; exact wf.int32.2⟩
  · exact ⟨kind_of_signed wf.int64.1, fun n h => by cases h; exact wf.int64.2⟩
  · exact ⟨kind_of_unsigned wf.size.1, fun n h => by cases h⟩
  · exact ⟨rfl, fun n h => by cases h⟩

/-- Two different targets can name the same type only when one of them is
`std::size_t` and the other a `std::uintN_t`. -/
theorem resolve_eq_cases {p : Platform} (wf : p.WellFormed) (t1 t2 : TypeName)
    (hne : t1 ≠ t2) (h : p.resolve t1 = p.resolve t2) :
    (t1 = TypeName.size_t ∧ t2.is_fixed_unsigned = true) ∨
    (t2 = TypeName.size_t ∧ t1.is_fixed_unsigned = true) := by
  obtain ⟨k1, w1⟩ := resolve_facts wf t1
  obtain ⟨k2, w2⟩ := resolve_facts wf t2
  rw [h] at k1 w1
  have hk : t1.kind = t2.kind := by rw [← k1, ← k2]
  have hw : ∀ n m, t1.fixed_bits = some n → t2.fixed_bits = some m → n = m := by
    intro n m hn hm
    rw [← w1 n hn, ← w2 m hm]
  cases t1 <;> cases t2 <;>
    first
    | exact absurd rfl hne
    | exact Or.inl ⟨rfl, rfl⟩
    | exact Or.inr ⟨rfl, rfl⟩
    | exact absurd hk (by decide)
    | exact absurd (hw _ _ rfl rfl) (by decide)

/-- Two different targets can name the same type only when one of them is
`std::size_t` and the other one of `std::uint16_t`, `std::uint32_t`,
`std::uint64_t`: `std::uint8_t` is too narrow for `std::size_t`. -/
theorem resolve_eq_cases_wide {p : Platform} (wf : p.WellFormed) (t1 t2 : TypeName)
    (hne : t1 ≠ t2) (h : p.resolve t1 = p.resolve t2) :
    (t1 = TypeName.size_t ∧ t2.is_wide_unsigned = true) ∨
    (t2 = TypeName.size_t ∧ t1.is_wide_unsigned = true) := by
  have hz := wf.size.2.1
  have h8 := wf.uint8.2
  rcases resolve_eq_cases wf t1 t2 hne h with ⟨rfl, hf⟩ | ⟨rfl, hf⟩
  · left
    refine ⟨rfl, ?_⟩
    cases t2 <;> first | rfl | exact absurd hf (by decide) | skip
    have h' : p.size_t = p.uint8_t := h
    rw [h'] at hz
    omega
  · right
    refine ⟨rfl, ?_⟩
    cases t1 <;> first | rfl | exact absurd hf (by decide) | skip
    have h' : p.uint8_t = p.size_t := h
    rw [← h'] at hz
    omega

theorem plain_injective {i j : Integral} (h : CppType.plain i = CppType.plain j) : i = j := by
  simpa [CppType.plain] using h

/-- C8, as stated, fails on x86-64 Linux, where `std::uint64_t` and
`std::size_t` are both `unsigned long`: each of the two targets satisfies the
other's `same_as_` and `underlying_or_same_as_` concept, so one type satisfies
the is-exactly predicate of two catalog members.  On 32-bit Linux the same
happens for `std::uint32_t` and `std::size_t`. -/
theorem uint64_t_satisfies_same_as_size_t :
    TypeName.uint64_t ≠ TypeName.size_t ∧
    same_as_size_t linux_x86_64 (T_uint64_t linux_x86_64) = true ∧
    underlying_or_same_as_size_t linux_x86_64 (T_uint64_t linux_x86_64) = true ∧
    same_as_uint64_t linux_x86_64 (T_size_t linux_x86_64) = true ∧
    underlying_or_same_as_uint64_t linux_x86_64 (T_size_t linux_x86_64) = true ∧
    is_exactly linux_x86_64 TypeName.size_t (linux_x86_64.type_of TypeName.uint64_t) = true ∧
    is_exactly_or_enum_of linux_x86_64 TypeName.size_t
      (linux_x86_64.type_of TypeName.uint64_t) = true ∧
    same_as_size_t linux_i386 (T_uint32_t linux_i386) = true := by
  decide

/-- C8, amended: for distinct targets `T1 ≠ T2`, `T1` satisfies `same_as_T2`
exactly when `underlying_or_same_as_T2` holds of it, and exactly when the
platform gives both names to one type; that can only happen for `std::size_t`
paired with one of `std::uint16_t`, `std::uint32_t`, `std::uint64_t`.  For every
other pair `T1` satisfies neither concept of `T2`, and any type satisfies
`same_as_T` for at most one target `T` other than `std::size_t`. -/
theorem distinct_targets_exclusive {p : Platform} (wf : p.WellFormed) (t1 t2 : TypeName)
    (hne : t1 ≠ t2) :
    is_exactly_or_enum_of p t2 (p.type_of t1) = is_exactly p t2 (p.type_of t1) ∧
    (is_exactly p t2 (p.type_of t1) = true ↔ p.resolve t1 = p.resolve t2) ∧
    (¬ ((t1 = TypeName.size_t ∧ t2.is_wide_unsigned = true) ∨
        (t2 = TypeName.size_t ∧ t1.is_wide_unsigned = true)) →
      is_exactly p t2 (p.type_of t1) = false ∧
      is_exactly_or_enum_of p t2 (p.type_of t1) = false) ∧
    (t1 ≠ TypeName.size_t → t2 ≠ TypeName.size_t →
      ∀ X : CppType, ¬ (is_exactly p t1 X = true ∧ is_exactly p t2 X = true)) := by
  have hiff : is_exactly p t2 (p.type_of t1) = true ↔ p.resolve t1 = p.resolve t2 := by
    rw [is_exactly_iff]
    exact ⟨plain_injective, fun h => by unfold Platform.type_of; rw [h]⟩
  have hsame : is_exactly_or_enum_of p t2 (p.type_of t1) = is_exactly p t2 (p.type_of t1) := by
    have he : is_enum_of p t2 (p.type_of t1) = false :=
      is_enum_of_plain p t2 (p.resolve t1)
    rw [is_exactly_or_enum_of_eq_or p t2 (p.type_of t1), he, Bool.or_false]
  refine ⟨hsame, hiff, ?_, ?_⟩
  · intro hpair
    have hf : is_exactly p t2 (p.type_of t1) = false := by
      rw [Bool.eq_false_iff]
      intro h
      exact hpair (resolve_eq_cases_wide wf t1 t2 hne (hiff.1 h))
    exact ⟨hf, by rw [hsame, hf]⟩
  · rintro h1 h2 X ⟨hx1, hx2⟩
    rw [is_exactly_iff] at hx1 hx2
    have hr : p.resolve t1 = p.resolve t2 := plain_injective (hx1.symm.trans hx2)
    rcases resolve_eq_cases wf t1 t2 hne hr with ⟨h, -⟩ | ⟨h, -⟩
    · exact h1 h
    · exact h2 h

/-- Witness of the amended C8: `std::uint8_t` against `std::int8_t` and against
`std::size_t` on x86-64 Linux, and `std::uint64_t` against `std::size_t` on
64-bit macOS, where the two are different types. -/
theorem distinct_targets_exclusive_witness :
    (same_as_int8_t linux_x86_64 (T_uint8_t linux_x86_64) = false ∧
      underlying_or_same_as_int8_t linux_x86_64 (T_uint8_t linux_x86_64) = false) ∧
    (same_as_size_t linux_x86_64 (T_uint8_t linux_x86_64) = false ∧
      underlying_or_same_as_size_t linux_x86_64 (T_uint8_t linux_x86_64) = false) ∧
    ¬ (same_as_size_t darwin_64 (T_uint64_t darwin_64) = true) :=
  ⟨(distinct_targets_exclusive linux_x86_64_wellFormed TypeName.uint8_t TypeName.int8_t
      (by decide)).2.2.1 (by decide),
   (distinct_targets_exclusive linux_x86_64_wellFormed TypeName.uint8_t TypeName.size_t
      (by decide)).2.2.1 (by decide),
   fun h => absurd
     ((distinct_targets_exclusive darwin_64_wellFormed TypeName.uint64_t TypeName.size_t
       (by decide)).2.1.1 h) (by decide)⟩

/-! ## Reading the four notations -/

theorem digit_value_digit_char (u : Bool) (d : Nat) (h : d < 16) :
    digit_value (digit_char u d) = some d := by
  interval_cases d <;> cases u <;> decide

theorem digit_char_ne_zero (u : Bool) (d : Nat) (h0 : 0 < d) (h : d < 16) :
    digit_char u d ≠ '0' := by
  interval_cases d <;> cases u <;> decide

theorem digit_char_not_marker (u : Bool) (d : Nat) (h : d < 8) :
    ¬ (digit_char u d = 'x' ∨ digit_char u d = 'X') ∧
    ¬ (digit_char u d = 'b' ∨ digit_char u d = 'B') := by
  interval_cases d <;> cases u <;> decide

/-- Reading spelled digits folds them, most significant first. -/
theorem foldl_digit_step (base : Nat) (hb : base ≤ 16) (upper : Nat → Bool) :
    ∀ (L : List Nat) (k acc : Nat), (∀ d ∈ L, d < base) →
      ((L.enumFrom k).map (fun x => digit_char (upper x.1) x.2)).foldl
          (digit_step base) (some acc) =
        some (L.foldl (fun a d => a * base + d) acc) := by
  intro L
  induction L with
  | nil => intro k acc _; rfl
  | cons d L ih =>
    intro k acc hL
    have hd : d < base := hL d (List.mem_cons_self d L)
    have hstep : digit_step base (some acc) (digit_char (upper k) d) =
        some (acc * base + d) := by
      unfold digit_step
      rw [digit_value_digit_char (upper k) d (by omega)]
      simp [hd]
    rw [List.enumFrom_cons, List.map_cons, List.foldl_cons, hstep, List.foldl_cons]
    exact ih (k + 1) (acc * base + d) (fun x hx => hL x (List.mem_cons_of_mem d hx))

theorem foldr_digits (base : Nat) (L : List Nat) :
    L.foldr (fun d a => a * base + d) 0 = Nat.ofDigits base L := by
  induction L with
  | nil => rfl
  | cons d L ih => rw [List.foldr_cons, ih, Nat.ofDigits_cons, Nat.mul_comm, Nat.add_comm]

/-- The digits spelled for `v` read back as `v`. -/
theorem digits_value_spell_digits (base : Nat) (h2 : 2 ≤ base) (h16 : base ≤ 16)
    (upper : Nat → Bool) (v : Nat) :
    digits_value base (spell_digits base upper v) = some v := by
  unfold digits_value spell_digits List.enum
  rw [foldl_digit_step base h16 upper _ 0 0
    (fun d hd => Nat.digits_lt_base (by omega) (List.mem_reverse.1 hd))]
  rw [List.foldl_reverse, foldr_digits, Nat.ofDigits_digits]

/-- The digits spelled for a non-zero `v` start with a non-zero digit. -/
theorem spell_digits_cons (base : Nat) (h2 : 2 ≤ base) (upper : Nat → Bool) (v : Nat)
    (hv : v ≠ 0) :
    ∃ d rest, 0 < d ∧ d < base ∧ spell_digits base upper v = digit_char (upper 0) d :: rest := by
  have hne : Nat.digits base v ≠ [] := Nat.digits_ne_nil_iff_ne_zero.2 hv
  have hlast := Nat.getLast_digit_ne_zero base hv
  rcases List.eq_nil_or_concat (Nat.digits base v) with h | ⟨L, d, h⟩
  · exact absurd h hne
  · rw [List.concat_eq_append] at h
    have hd : d ∈ Nat.digits base v := by rw [h]; simp
    have hd0 : d ≠ 0 := by
      have : (Nat.digits base v).getLast hne = d := by simp [h]
      rw [this] at hlast
      exact hlast
    refine ⟨d, (L.reverse.enumFrom 1).map (fun x => digit_char (upper x.1) x.2),
      Nat.pos_of_ne_zero hd0, Nat.digits_lt_base (by omega) hd, ?_⟩
    unfold spell_digits List.enum
    rw [h, List.reverse_append, List.reverse_singleton, List.singleton_append,
      List.enumFrom_cons, List.map_cons]

theorem spell_digits_zero (base : Nat) (upper : Nat → Bool) :
    spell_digits base upper 0 = [] := by
  simp [spell_digits]

/-- Every notation of `v` is read back as `v` by the compiler. -/
theorem integer_literal_spell (n : Notation) (v : Nat) :
    integer_literal (spell n v) = some v := by
  cases n with
  | binary capital =>
    have hm : ¬ ((if capital = true then 'B' else 'b') = 'x' ∨
        (if capital = true then 'B' else 'b') = 'X') := by cases capital <;> decide
    have hb : (if capital = true then 'B' else 'b') = 'b' ∨
        (if capital = true then 'B' else 'b') = 'B' := by cases capital <;> decide
    unfold spell integer_literal
    simp only [if_true, if_neg hm, if_pos hb]
    by_cases hv : v = 0
    · subst hv
      simp only [if_true]
      decide
    · obtain ⟨d, rest, -, -, hs⟩ := spell_digits_cons 2 (by decide) (fun _ => false) v hv
      rw [if_neg hv, if_neg (by rw [hs]; exact List.cons_ne_nil _ _)]
      exact digits_value_spell_digits 2 (by decide) (by decide) _ v
  | octal =>
    unfold spell integer_literal
    simp only [if_true]
    by_cases hv : v = 0
    · subst hv
      rw [spell_digits_zero]
    · obtain ⟨d, rest, -, hd, hs⟩ := spell_digits_cons 8 (by decide) (fun _ => false) v hv
      have hval := digits_value_spell_digits 8 (by decide) (by decide) (fun _ => false) v
      rw [hs] at hval ⊢
      obtain ⟨hx, hb⟩ := digit_char_not_marker false d hd
      simp only [if_neg hx, if_neg hb]
      exact hval
  | decimal =>
    simp only [spell]
    by_cases hv : v = 0
    · subst hv
      decide
    · obtain ⟨d, rest, hd0, hd, hs⟩ := spell_digits_cons 10 (by decide) (fun _ => false) v hv
      have hval := digits_value_spell_digits 10 (by decide) (by decide) (fun _ => false) v
      rw [if_neg hv]
      rw [hs] at hval ⊢
      unfold integer_literal
      simp only [if_neg (digit_char_ne_zero false d hd0 (by omega))]
      exact hval
  | hexadecimal capital upper =>
    have hm : (if capital = true then 'X' else 'x') = 'x' ∨
        (if capital = true then 'X' else 'x') = 'X' := by cases capital <;> decide
    unfold spell integer_literal
    simp only [if_true, if_pos hm]
    by_cases hv : v = 0
    · subst hv
      simp only [if_true]
      decide
    · obtain ⟨d, rest, -, -, hs⟩ := spell_digits_cons 16 (by decide) upper v hv
      rw [if_neg hv, if_neg (by rw [hs]; exact List.cons_ne_nil _ _)]
      exact digits_value_spell_digits 16 (by decide) (by decide) _ v

/-- A token whose value is at most the target's maximum yields that value with
the target's type. -/
theorem user_defined_literal_of_value {p : Platform} (wf : p.WellFormed) (s : Suffix)
    (tok : String) (v : Nat) (ht : integer_literal tok.toList = some v)
    (h : (v : Int) ≤ s.max p) :
    user_defined_literal p s tok = some (Except.ok ⟨p.type_of s.type_name, v⟩) := by
  obtain ⟨-, h1⟩ := max_bounds wf s
  have hU : (ULLONG_MAX : Int) = 2 ^ 64 - 1 := by decide
  have hfit : to_unsigned_long_long v = v := Nat.mod_eq_of_lt (by omega)
  unfold user_defined_literal
  rw [ht]
  simp only
  rw [hfit, operator_spec wf s v, if_neg (by omega)]

/-- C4: for every suffix with target `T` and every `v` with `0 ≤ v ≤ max(T)`,
the tokens writing `v` in binary (`0b` or `0B`), octal (leading `0`), decimal
and hexadecimal (`0x` or `0X`, digits in either letter case) notation all
yield, with the suffix, the same result: the value `v` with a static type that
satisfies `same_as_T`. -/
theorem notations_agree {p : Platform} (wf : p.WellFormed) (s : Suffix) (v : Nat)
    (h : (v : Int) ≤ s.max p) :
    (∀ n : Notation, user_defined_literal p s (String.mk (spell n v)) =
      some (Except.ok ⟨p.type_of s.type_name, v⟩)) ∧
    (∀ n m : Notation, user_defined_literal p s (String.mk (spell n v)) =
      user_defined_literal p s (String.mk (spell m v))) ∧
    is_exactly p s.type_name (p.type_of s.type_name) = true := by
  have hall : ∀ n : Notation, user_defined_literal p s (String.mk (spell n v)) =
      some (Except.ok ⟨p.type_of s.type_name, v⟩) :=
    fun n => user_defined_literal_of_value wf s _ v (integer_literal_spell n v) h
  refine ⟨hall, fun n m => by rw [hall n, hall m], ?_⟩
  rw [is_exactly_iff]

/-- Witness of C4 on x86-64 Linux: `0b101_z` equals `5_z`, of type
`std::size_t`, and `0xfeF1_i64` equals `65265_i64`, of type `std::int64_t`. -/
theorem notations_agree_witness :
    (user_defined_literal linux_x86_64 Suffix._z (String.mk (spell (Notation.binary false) 5)) =
        user_defined_literal linux_x86_64 Suffix._z (String.mk (spell Notation.decimal 5)) ∧
      String.mk (spell (Notation.binary false) 5) = "0b101" ∧
      String.mk (spell Notation.decimal 5) = "5" ∧
      user_defined_literal linux_x86_64 Suffix._z "0b101" =
        some (Except.ok ⟨T_size_t linux_x86_64, 5⟩) ∧
      user_defined_literal linux_x86_64 Suffix._z "5" =
        some (Except.ok ⟨T_size_t linux_x86_64, 5⟩)) ∧
    (user_defined_literal linux_x86_64 Suffix._i64
        (String.mk (spell (Notation.hexadecimal false (fun i => decide (i = 2))) 65265)) =
        some (Except.ok ⟨T_int64_t linux_x86_64, 65265⟩) ∧
      String.mk (spell (Notation.hexadecimal false (fun i => decide (i = 2))) 65265) =
        "0xfeF1" ∧
      user_defined_literal linux_x86_64 Suffix._i64 "0xfeF1" =
        user_defined_literal linux_x86_64 Suffix._i64 "65265" ∧
      same_as_int64_t linux_x86_64 (T_int64_t linux_x86_64) = true) :=
  ⟨⟨(notations_agree linux_x86_64_wellFormed Suffix._z 5 (by decide)).2.1 _ _,
    by simp [spell, spell_digits, digit_char, List.enum, List.enumFrom],
    by simp [spell, spell_digits, digit_char, List.enum, List.enumFrom],
    by decide, by decide⟩,
   ⟨(notations_agree linux_x86_64_wellFormed Suffix._i64 65265 (by decide)).1 _,
    by simp [spell, spell_digits, digit_char, List.enum, List.enumFrom],
    by decide, by decide⟩⟩

/-! ## Literals meet the classifier -/

theorem int8_t_ne_uint8_t {p : Platform} (wf : p.WellFormed) : p.int8_t ≠ p.uint8_t := by
  intro h
  rcases resolve_eq_cases wf TypeName.int8_t TypeName.uint8_t (by decide) h with ⟨h1, -⟩ | ⟨h1, -⟩
  · exact absurd h1 (by decide)
  · exact absurd h1 (by decide)

theorem underlying_or_same_as_uint8_t_iff (p : Platform) (X : CppType) :
    underlying_or_same_as_uint8_t p X = true ↔
      X = T_uint8_t p ∨ (is_enum_v X = true ∧ underlying_type_t X = some (T_uint8_t p)) := by
  have h := is_exactly_or_enum_of_eq_or p TypeName.uint8_t X
  have h1 := is_exactly_iff p TypeName.uint8_t X
  have h2 := is_enum_of_iff p TypeName.uint8_t X
  show is_exactly_or_enum_of p TypeName.uint8_t X = true ↔ _
  rw [h, Bool.or_eq_true, h1, h2]
  rfl

/-- C10: a function template constrained by `underlying_or_same_as_uint8_t`
accepts the results of `8_u8`, `0b1100_u8` and `0xBE_u8` (as does
`StronglyTypedFunction` of `main.cpp`, constrained by `same_as_uint8_t`), accepts
a value of any enumeration whose underlying type is `std::uint8_t`, and rejects
a plain `std::int8_t` value, in particular every result of an `_i8` literal. -/
theorem uint8_constraint_accepts_u8_rejects_i8 {p : Platform} (wf : p.WellFormed) :
    (∀ tok ∈ ["8", "0b1100", "0xBE"], ∃ r,
      user_defined_literal p Suffix._u8 tok = some (Except.ok r) ∧
      r.type = T_uint8_t p ∧
      constrained_call (underlying_or_same_as_uint8_t p) r = some r ∧
      StronglyTypedFunction p r = some r) ∧
    (∀ (id : Nat) (x : Int),
      constrained_call (underlying_or_same_as_uint8_t p) ⟨CppType.enum_of id p.uint8_t, x⟩ =
        some ⟨CppType.enum_of id p.uint8_t, x⟩) ∧
    (∀ x : Int, constrained_call (underlying_or_same_as_uint8_t p) ⟨T_int8_t p, x⟩ = none) ∧
    (∀ (v : Nat) (r : Value), Suffix._i8.operator p v = Except.ok r →
      constrained_call (underlying_or_same_as_uint8_t p) r = none) := by
  have hmax : Suffix._u8.max p = 255 := by
    rw [max_eq wf Suffix._u8]
    simp [Suffix.is_signed_target, Suffix.bits]
  have hself : underlying_or_same_as_uint8_t p (T_uint8_t p) = true :=
    (underlying_or_same_as_uint8_t_iff p _).2 (Or.inl rfl)
  have hexact : same_as_uint8_t p (T_uint8_t p) = true := by simp [same_as_uint8_t, same_as]
  have hi8 : underlying_or_same_as_uint8_t p (T_int8_t p) = false := by
    rw [Bool.eq_false_iff]
    intro h
    rcases (underlying_or_same_as_uint8_t_iff p _).1 h with h | ⟨h, -⟩
    · exact int8_t_ne_uint8_t wf (plain_injective h)
    · exact absurd h (by simp [is_enum_v, CppType.plain])
  have hlit : ∀ (tok : String) (v : Nat), integer_literal tok.toList = some v → v ≤ 255 →
      ∃ r, user_defined_literal p Suffix._u8 tok = some (Except.ok r) ∧
        r.type = T_uint8_t p ∧
        constrained_call (underlying_or_same_as_uint8_t p) r = some r ∧
        StronglyTypedFunction p r = some r := by
    intro tok v ht hv
    refine ⟨⟨T_uint8_t p, v⟩,
      user_defined_literal_of_value wf Suffix._u8 tok v ht (by rw [hmax]; omega), rfl, ?_, ?_⟩
    · show (if underlying_or_same_as_uint8_t p (T_uint8_t p) = true then _ else _) = _
      rw [if_pos hself]
      rfl
    · show (if same_as_uint8_t p (T_uint8_t p) = true then _ else _) = _
      rw [if_pos hexact]
      rfl
  refine ⟨?_, ?_, ?_, ?_⟩
  · intro tok htok
    simp only [List.mem_cons, List.mem_singleton, List.not_mem_nil, or_false] at htok
    rcases htok with rfl | rfl | rfl
    · exact hlit "8" 8 (by decide) (by decide)
    · exact hlit "0b1100" 12 (by decide) (by decide)
    · exact hlit "0xBE" 190 (by decide) (by decide)
  · intro id x
    have h : underlying_or_same_as_uint8_t p (CppType.enum_of id p.uint8_t) = true :=
      (underlying_or_same_as_uint8_t_iff p _).2 (Or.inr ⟨rfl, rfl⟩)
    show (if underlying_or_same_as_uint8_t p (CppType.enum_of id p.uint8_t) = true
      then _ else _) = _
    rw [if_pos h]
    rfl
  · intro x
    show (if underlying_or_same_as_uint8_t p (T_int8_t p) = true then _ else _) = _
    rw [hi8]
    rfl
  · intro v r hr
    rw [operator_spec wf Suffix._i8 v] at hr
    split at hr
    · cases hr
    · cases hr
      show (if underlying_or_same_as_uint8_t p (T_int8_t p) = true then _ else _) = _
      rw [hi8]
      rfl

/-- Witness of C10 on x86-64 Linux. -/
theorem uint8_constraint_accepts_u8_rejects_i8_witness :
    (∃ r, user_defined_literal linux_x86_64 Suffix._u8 "8" = some (Except.ok r) ∧
      r.type = T_uint8_t linux_x86_64 ∧
      constrained_call (underlying_or_same_as_uint8_t linux_x86_64) r = some r ∧
      StronglyTypedFunction linux_x86_64 r = some r) ∧
    constrained_call (underlying_or_same_as_uint8_t linux_x86_64)
      ⟨CppType.enum_of 7 Integral.unsigned_char, 3⟩ =
        some ⟨CppType.enum_of 7 Integral.unsigned_char, 3⟩ ∧
    constrained_call (underlying_or_same_as_uint8_t linux_x86_64)
      ⟨CppType.plain Integral.signed_char, 8⟩ = none ∧
    Suffix._i8.operator linux_x86_64 8 =
      Except.ok ⟨CppType.plain Integral.signed_char, 8⟩ :=
  ⟨(uint8_constraint_accepts_u8_rejects_i8 linux_x86_64_wellFormed).1 "8" (by decide),
   (uint8_constraint_accepts_u8_rejects_i8 linux_x86_64_wellFormed).2.1 7 3,
   (uint8_constraint_accepts_u8_rejects_i8 linux_x86_64_wellFormed).2.2.1 8,
   by decide⟩

/-! ## The surface of the classifier and the classification function -/

theorem typeName_all_complete (t : TypeName) : t ∈ TypeName.all := by
  cases t <;> decide

theorem typeName_all_nodup : TypeName.all.Nodup := by
  decide

/-- C11, as stated, fails: the header declares ten concepts in each family, the
tenth being the one for `bool`, thirty in all and not twenty-seven. -/
theorem public_concepts_not_27 :
    (same_as_concepts linux_x86_64).length = 10 ∧
    (underlying_concepts linux_x86_64).length = 10 ∧
    (underlying_or_same_as_concepts linux_x86_64).length = 10 ∧
    (public_concepts linux_x86_64).length = 30 ∧
    (public_concepts linux_x86_64).length ≠ 27 ∧
    "same_as_bool" ∈ public_concept_names linux_x86_64 ∧
    "underlying_bool" ∈ public_concept_names linux_x86_64 ∧
    "underlying_or_same_as_bool" ∈ public_concept_names linux_x86_64 := by
  decide

/-- C11, amended: the header declares exactly thirty named concepts with
pairwise different names: ten `same_as_*`, ten `underlying_*` and ten
`underlying_or_same_as_*`, in each family one for every one of the ten targets
(the eight fixed-width integer types, `std::size_t` and `bool`). -/
theorem public_concepts_thirty (p : Platform) :
    (public_concepts p).length = 30 ∧
    (public_concept_names p).Nodup ∧
    TypeName.all.length = 10 ∧
    (same_as_concepts p).map Prod.snd = TypeName.all.map (is_exactly p) ∧
    (underlying_concepts p).map Prod.snd = TypeName.all.map (is_enum_of p) ∧
    (underlying_or_same_as_concepts p).map Prod.snd =
      TypeName.all.map (is_exactly_or_enum_of p) := by
  refine ⟨rfl, ?_, rfl, rfl, rfl, rfl⟩
  have h : public_concept_names p = public_concept_names linux_x86_64 := rfl
  rw [h]
  decide

theorem underlying_or_self_t_enum (id : Nat) (u : Integral) (c v : Bool) :
    underlying_or_self_t ⟨Core.enumeration id u, c, v⟩ = CppType.plain u := rfl

theorem underlying_or_self_t_of_not_enum (X : CppType) (h : is_enum_v X = false) :
    underlying_or_self_t X = X := by
  unfold underlying_or_self_t
  rw [h]
  rfl

theorem underlying_or_self_t_of_enum (X : CppType) (h : is_enum_v X = true) :
    underlying_type_t X = some (underlying_or_self_t X) := by
  obtain ⟨core, c, v⟩ := X
  cases core with
  | integral i => exact absurd h (by simp [is_enum_v])
  | enumeration id u => rfl
  | other id => exact absurd h (by simp [is_enum_v])

theorem is_enum_v_underlying_or_self_t (X : CppType) :
    is_enum_v (underlying_or_self_t X) = false := by
  obtain ⟨core, c, v⟩ := X
  cases core <;> rfl

/-- C12: `underlying_or_self_t` is defined on every type; a type is an enumeration
or it is not, an enumeration is mapped to its underlying type (which
`std::underlying_type_t` names), and every other type is mapped to itself. -/
theorem underlying_or_self_total (X : CppType) :
    (is_enum_v X = true ∨ is_enum_v X = false) ∧
    (is_enum_v X = true → underlying_type_t X = some (underlying_or_self_t X)) ∧
    (is_enum_v X = false → underlying_or_self_t X = X) ∧
    (∀ (id : Nat) (u : Integral) (c v : Bool),
      underlying_or_self_t ⟨Core.enumeration id u, c, v⟩ = CppType.plain u) ∧
    (∀ (i : Integral) (c v : Bool),
      underlying_or_self_t ⟨Core.integral i, c, v⟩ = ⟨Core.integral i, c, v⟩) ∧
    (∀ (id : Nat) (c v : Bool),
      underlying_or_self_t ⟨Core.other id, c, v⟩ = ⟨Core.other id, c, v⟩) := by
  refine ⟨?_, underlying_or_self_t_of_enum X, underlying_or_self_t_of_not_enum X,
    underlying_or_self_t_enum, fun _ _ _ => rfl, fun _ _ _ => rfl⟩
  cases is_enum_v X
  · exact Or.inr rfl
  · exact Or.inl rfl

/-- Witness of C12: an enumeration over `unsigned char`, qualified or not, is
mapped to `unsigned char`; `const int` and a class type are mapped to
themselves. -/
theorem underlying_or_self_total_witness :
    underlying_or_self_t (CppType.enum_of 3 Integral.unsigned_char) =
      CppType.plain Integral.unsigned_char ∧
    underlying_or_self_t ⟨Core.enumeration 3 Integral.unsigned_char, true, true⟩ =
      CppType.plain Integral.unsigned_char ∧
    underlying_or_self_t ⟨Core.integral Integral.int, true, false⟩ =
      ⟨Core.integral Integral.int, true, false⟩ ∧
    underlying_or_self_t ⟨Core.other 0, false, false⟩ = ⟨Core.other 0, false, false⟩ :=
  ⟨Option.some.inj ((underlying_or_self_total _).2.1 (by decide)).symm,
   Option.some.inj ((underlying_or_self_total _).2.1 (by decide)).symm,
   (underlying_or_self_total _).2.2.1 (by decide),
   (underlying_or_self_total _).2.2.1 (by decide)⟩

/-- C16: `underlying_or_self_t` is idempotent on every type, since the underlying
type of an enumeration is never an enumeration; hence, for every target `T`,
`underlying_or_same_as_T<X>` holds exactly when `same_as_T` holds of
`underlying_or_self_t<X>`. -/
theorem underlying_or_self_idempotent (p : Platform) (t : TypeName) (X : CppType) :
    underlying_or_self_t (underlying_or_self_t X) = underlying_or_self_t X ∧
    (∀ U, underlying_type_t X = some U → is_enum_v U = false) ∧
    is_enum_v (underlying_or_self_t X) = false ∧
    is_exactly_or_enum_of p t X = is_exactly p t (underlying_or_self_t X) ∧
    (is_exactly_or_enum_of p t X = true ↔ is_exactly p t (underlying_or_self_t X) = true) := by
  have hne := is_enum_v_underlying_or_self_t X
  have heq : is_exactly_or_enum_of p t X = is_exactly p t (underlying_or_self_t X) := by
    rw [is_exactly_or_enum_of_eq, is_exactly_eq]
  refine ⟨underlying_or_self_t_of_not_enum _ hne, ?_, hne, heq, by rw [heq]⟩
  intro U hU
  obtain ⟨core, c, v⟩ := X
  cases core with
  | integral i => cases hU
  | enumeration id u =>
    have : U = CppType.plain u := (Option.some.inj hU).symm
    rw [this]
    rfl
  | other id => cases hU

/-! ## Further properties of the literal operators -/

/-- A failed operator call carries the text built by the macro. -/
theorem failed_operator_message (p : Platform) (s : Suffix) (v : Nat)
    (h : failed (s.operator p v) = true) :
    s.operator p v =
      Except.error ("Literal value out of range for type: " ++ s.type_name.spelling) := by
  rw [operator_eq] at h ⊢
  unfold FIXED_WIDTH_INT_LITERALS_SUFFIX at h ⊢
  split
  · rfl
  · rename_i hc
    rw [if_neg hc] at h
    exact absurd h (by simp [failed])

theorem spelling_injective (s1 s2 : Suffix)
    (h : "Literal value out of range for type: " ++ s1.type_name.spelling =
      "Literal value out of range for type: " ++ s2.type_name.spelling) : s1 = s2 := by
  cases s1 <;> cases s2 <;> first | rfl | exact absurd h (by decide)

/-- C13: whenever a literal operator rejects its input, the error is exactly
`"Literal value out of range for type: "` followed by the name of the suffix's
target type as written in the header, and the messages of two different
suffixes differ. -/
theorem rejection_message_names_target (p : Platform) (s : Suffix) (v : Nat)
    (h : failed (s.operator p v) = true) :
    s.operator p v =
      Except.error ("Literal value out of range for type: " ++ s.type_name.spelling) ∧
    (∀ (s2 : Suffix) (v2 : Nat), s.operator p v = s2.operator p v2 → s2 = s) := by
  have hm := failed_operator_message p s v h
  refine ⟨hm, ?_⟩
  intro s2 v2 he
  have h2 : failed (s2.operator p v2) = true := by rw [← he]; exact h
  rw [hm, failed_operator_message p s2 v2 h2] at he
  exact (spelling_injective s s2 (Except.error.inj he)).symm

/-- Witness of C13 on x86-64 Linux: the messages of `257_u8` and of
`4294967296_z` on 32-bit Linux, and the nine type names. -/
theorem rejection_message_names_target_witness :
    Suffix._u8.operator linux_x86_64 257 =
      Except.error "Literal value out of range for type: std::uint8_t" ∧
    Suffix._z.operator linux_i386 4294967296 =
      Except.error "Literal value out of range for type: std::size_t" ∧
    Suffix._u8.operator linux_x86_64 257 ≠ Suffix._i8.operator linux_x86_64 257 ∧
    [Suffix._u8, Suffix._u16, Suffix._u32, Suffix._u64, Suffix._i8, Suffix._i16,
        Suffix._i32, Suffix._i64, Suffix._z].map (fun s => s.type_name.spelling) =
      ["std::uint8_t", "std::uint16_t", "std::uint32_t", "std::uint64_t", "std::int8_t",
        "std::int16_t", "std::int32_t", "std::int64_t", "std::size_t"] :=
  ⟨(rejection_message_names_target linux_x86_64 Suffix._u8 257 (by decide)).1,
   (rejection_message_names_target linux_i386 Suffix._z 4294967296 (by decide)).1,
   fun he => absurd
     ((rejection_message_names_target linux_x86_64 Suffix._u8 257 (by decide)).2
       Suffix._i8 257 he) (by decide),
   by decide⟩

theorem i8_max_least {p : Platform} (wf : p.WellFormed) (s : Suffix) :
    Suffix._i8.max p ≤ s.max p := by
  have hz := wf.size
  rw [max_eq wf Suffix._i8, max_eq wf s]
  cases s <;> simp [Suffix.is_signed_target, Suffix.bits]
  have h2 : (2 : Int) ^ 16 ≤ 2 ^ p.width p.size_t := by
    have : (2 : Nat) ^ 16 ≤ 2 ^ p.width p.size_t := Nat.pow_le_pow_right (by decide) hz.2.1
    exact_mod_cast this
  omega

/-- An accepted input is at most the target's maximum and is returned as is. -/
theorem accepted_facts {p : Platform} (wf : p.WellFormed) (s : Suffix) (v : Nat) (r : Value)
    (h : s.operator p v = Except.ok r) : (v : Int) ≤ s.max p ∧ r.val = v := by
  rw [operator_spec wf s v] at h
  by_cases hc : (v : Int) > s.max p
  · rw [if_pos hc] at h
    cases h
  · rw [if_neg hc] at h
    cases h
    exact ⟨by omega, rfl⟩

theorem accepts_of_le_max {p : Platform} (wf : p.WellFormed) (s : Suffix) (v : Nat)
    (h : (v : Int) ≤ s.max p) :
    s.operator p v = Except.ok ⟨p.type_of s.type_name, v⟩ := by
  rw [operator_spec wf s v, if_neg (by omega)]

/-- C14: when `max(T1) ≤ max(T2)`, every input accepted by the operator of `T1`
is accepted by the operator of `T2`, and both results have the numeric value of
the input.  The maximum of `std::int8_t` is the least of all, so whatever `_i8`
accepts every suffix accepts, with an equal value. -/
theorem acceptance_monotone {p : Platform} (wf : p.WellFormed) (s1 s2 : Suffix)
    (hmax : s1.max p ≤ s2.max p) (v : Nat) (r1 : Value)
    (h1 : s1.operator p v = Except.ok r1) :
    (∃ r2, s2.operator p v = Except.ok r2 ∧ r2.val = r1.val ∧ r1.val = v ∧
      r2.type = p.type_of s2.type_name) ∧
    (∀ (s : Suffix) (w : Nat) (r : Value), Suffix._i8.operator p w = Except.ok r →
      ∃ r2, s.operator p w = Except.ok r2 ∧ r2.val = r.val) := by
  obtain ⟨hle, hr1⟩ := accepted_facts wf s1 v r1 h1
  refine ⟨⟨⟨p.type_of s2.type_name, v⟩, accepts_of_le_max wf s2 v (by omega), hr1.symm, hr1,
    rfl⟩, ?_⟩
  intro s w r hr
  obtain ⟨hw, hrw⟩ := accepted_facts wf Suffix._i8 w r hr
  exact ⟨⟨p.type_of s.type_name, w⟩,
    accepts_of_le_max wf s w (le_trans hw (i8_max_least wf s)), hrw.symm⟩

/-- Witness of C14 on x86-64 Linux: `100_i8` is accepted, hence so is `100_u8`,
with the same value. -/
theorem acceptance_monotone_witness :
    (∃ r2, Suffix._u8.operator linux_x86_64 100 = Except.ok r2 ∧
      r2.val = (⟨CppType.plain Integral.signed_char, 100⟩ : Value).val ∧
      (⟨CppType.plain Integral.signed_char, 100⟩ : Value).val = (100 : Nat) ∧
      r2.type = linux_x86_64.type_of TypeName.uint8_t) ∧
    Suffix._i8.operator linux_x86_64 100 =
      Except.ok ⟨CppType.plain Integral.signed_char, 100⟩ ∧
    Suffix._i8.max linux_x86_64 ≤ Suffix._u8.max linux_x86_64 :=
  ⟨(acceptance_monotone linux_x86_64_wellFormed Suffix._i8 Suffix._u8 (by decide) 100
      ⟨CppType.plain Integral.signed_char, 100⟩ (by decide)).1,
   by decide, by decide⟩

/-- C15: `_u64` is total: for every `unsigned long long` input the range check
is false, the operator does not fail and returns its input unchanged, with type
`std::uint64_t`; the same holds for `_z` where `std::size_t` has 64 bits. -/
theorem u64_operator_total {p : Platform} (wf : p.WellFormed) (v : Nat)
    (hv : v ≤ ULLONG_MAX) :
    ¬ ((v : Int) > static_cast p Integral.unsigned_long_long
        (numeric_limits_max p (p.resolve TypeName.uint64_t))) ∧
    failed (literals.operator_u64 p v) = false ∧
    literals.operator_u64 p v = Except.ok ⟨T_uint64_t p, v⟩ ∧
    (p.width p.size_t = 64 →
      ¬ ((v : Int) > static_cast p Integral.unsigned_long_long
          (numeric_limits_max p (p.resolve TypeName.size_t))) ∧
      failed (literals.operator_z p v) = false ∧
      literals.operator_z p v = Except.ok ⟨T_size_t p, v⟩) := by
  have hU : (ULLONG_MAX : Int) = 2 ^ 64 - 1 := by decide
  have hv' : (v : Int) ≤ 2 ^ 64 - 1 := by
    have : (v : Int) ≤ (ULLONG_MAX : Int) := by exact_mod_cast hv
    omega
  have hu64 : Suffix._u64.max p = 2 ^ 64 - 1 := by
    rw [max_eq wf Suffix._u64]
    simp [Suffix.is_signed_target, Suffix.bits]
  have hcu := cast_ull_max wf Suffix._u64
  have hok : Suffix._u64.operator p v = Except.ok ⟨p.type_of TypeName.uint64_t, v⟩ :=
    accepts_of_le_max wf Suffix._u64 v (by rw [hu64]; exact hv')
  refine ⟨?_, ?_, hok, ?_⟩
  · have : static_cast p Integral.unsigned_long_long
        (numeric_limits_max p (p.resolve TypeName.uint64_t)) = 2 ^ 64 - 1 := by
      rw [← hu64]
      exact hcu
    rw [this]
    omega
  · show failed (Suffix._u64.operator p v) = false
    rw [hok]
    rfl
  · intro hw
    have hz : Suffix._z.max p = 2 ^ 64 - 1 := by
      rw [max_eq wf Suffix._z]
      simp [Suffix.is_signed_target, Suffix.bits, hw]
    have hcz := cast_ull_max wf Suffix._z
    have hokz : Suffix._z.operator p v = Except.ok ⟨p.type_of TypeName.size_t, v⟩ :=
      accepts_of_le_max wf Suffix._z v (by rw [hz]; exact hv')
    refine ⟨?_, ?_, hokz⟩
    · have : static_cast p Integral.unsigned_long_long
          (numeric_limits_max p (p.resolve TypeName.size_t)) = 2 ^ 64 - 1 := by
        rw [← hz]
        exact hcz
      rw [this]
      omega
    · show failed (Suffix._z.operator p v) = false
      rw [hokz]
      rfl

/-- Witness of C15 on x86-64 Linux: the largest `unsigned long long` and zero are
returned unchanged by `_u64`, the largest also by `_z`. -/
theorem u64_operator_total_witness :
    literals.operator_u64 linux_x86_64 18446744073709551615 =
      Except.ok ⟨T_uint64_t linux_x86_64, 18446744073709551615⟩ ∧
    failed (literals.operator_u64 linux_x86_64 0) = false ∧
    literals.operator_z linux_x86_64 18446744073709551615 =
      Except.ok ⟨T_size_t linux_x86_64, 18446744073709551615⟩ :=
  ⟨(u64_operator_total linux_x86_64_wellFormed 18446744073709551615 (by decide)).2.2.1,
   (u64_operator_total linux_x86_64_wellFormed 0 (by decide)).2.1,
   ((u64_operator_total linux_x86_64_wellFormed 18446744073709551615 (by decide)).2.2.2
     (by decide)).2.2⟩

end FixedWidthInts
